import Mathlib

/-!
Verification development for the QEMU live copy-on-write backup engines.

Two engines are present in the repository and are embedded separately:
* `Backup.Mainline` embeds `src/block/backup.c`;
* `Backup.Variant` embeds `src/backup.c`.

The embedding is a shallow one: the block layer (source reads, target
writes, device length, cancellation flag, error-action resolution) is an
oracle environment `Backup.Env`; the per-job mutable state is threaded
explicitly; every external I/O submission is recorded in a trace.
-/

namespace Backup

/-- Sector size in bytes, `BDRV_SECTOR_SIZE`. -/
def BDRV_SECTOR_SIZE : Nat := 512

/-- Cluster size exponent, `#define BACKUP_CLUSTER_BITS 16`. -/
def BACKUP_CLUSTER_BITS : Nat := 16

/-- Cluster size in bytes, `#define BACKUP_CLUSTER_SIZE (1 << BACKUP_CLUSTER_BITS)`. -/
def BACKUP_CLUSTER_SIZE : Nat := 2 ^ BACKUP_CLUSTER_BITS

/-- Sectors per cluster, `BACKUP_CLUSTER_SIZE / BDRV_SECTOR_SIZE` (= 128). -/
def BACKUP_SECTORS_PER_CLUSTER : Nat := BACKUP_CLUSTER_SIZE / BDRV_SECTOR_SIZE

/-- The `DIV_ROUND_UP(a, b)` macro: ceiling division on non-negative values. -/
def DIV_ROUND_UP (a b : Nat) : Nat := (a + b - 1) / b

/-- Resolved error action returned by `block_job_error_action`
(`BDRV_ACTION_REPORT` and the non-report outcomes). -/
inductive BlockErrorAction
  | report
  | ignore
  | stop
  deriving DecidableEq

/-- Oracle environment for the block layer and job control consumed by the
engines.  `getLength` is the result of `bdrv_getlength` on the source in
bytes (negative means failure).  `srcSector s` is the content of source
sector `s` (value `0` means the 512 bytes are all zero).  `readRet c`,
`writeRet c` and `writeZeroRet c` are the results of the cluster-granular
`bdrv_co_readv`, `bdrv_co_writev` and `bdrv_co_write_zeroes` submissions
for cluster `c`.  `speed` is the configured rate limit, `cancel1 i` and
`cancel2 i` are the values of `block_job_is_cancelled` at the two checks of
sweep iteration `i`, and `errAction isRead errno` is the resolved action
returned by `block_job_error_action`. -/
structure Env where
  getLength : Int
  srcSector : Nat → Nat
  readRet : Nat → Int
  writeRet : Nat → Int
  writeZeroRet : Nat → Int
  speed : Nat
  cancel1 : Nat → Bool
  cancel2 : Nat → Bool
  errAction : Bool → Int → BlockErrorAction

/-- External events emitted by the engines: source reads, target writes,
target write-zeroes (sector offset and sector count each), the feeding of
`sectors_read` into `ratelimit_calculate_delay`, and consultations of the
error-action policy. -/
inductive IOEvent
  | read (sector n : Nat)
  | write (sector n : Nat)
  | writeZeroes (sector n : Nat)
  | rateLimit (sectors : Nat)
  | errorAction (isRead : Bool)
  deriving DecidableEq

/-- True iff the event is a target write or write-zeroes for cluster `c`. -/
def isTargetOpFor (c : Nat) : IOEvent → Bool
  | .write s _ => s == c * BACKUP_SECTORS_PER_CLUSTER
  | .writeZeroes s _ => s == c * BACKUP_SECTORS_PER_CLUSTER
  | _ => false

/-- True iff the event is a target write-zeroes for cluster `c`. -/
def isWriteZeroFor (c : Nat) : IOEvent → Bool
  | .writeZeroes s _ => s == c * BACKUP_SECTORS_PER_CLUSTER
  | _ => false

/-- True iff the event is a plain target write for cluster `c`. -/
def isWriteFor (c : Nat) : IOEvent → Bool
  | .write s _ => s == c * BACKUP_SECTORS_PER_CLUSTER
  | _ => false

/-- True iff the event is a consultation of the error-action policy. -/
def isPolicyConsult : IOEvent → Bool
  | .errorAction _ => true
  | _ => false

/-- The `n = MIN(BACKUP_SECTORS_PER_CLUSTER, total_sectors - start *
BACKUP_SECTORS_PER_CLUSTER)` computation of `backup_do_cow`
(src/block/backup.c), performed in signed 64-bit arithmetic; `.toNat` only
packages the result as a sector count (it is positive at every reachable
call site, where `c * 128 < total`). -/
def nSec (total c : Nat) : Nat :=
  (min ((BACKUP_SECTORS_PER_CLUSTER : Nat) : Int)
    ((total : Int) - (c : Int) * ((BACKUP_SECTORS_PER_CLUSTER : Nat) : Int))).toNat

/-- The `buffer_is_zero(iov.iov_base, iov.iov_len)` check after the bounce
buffer was filled by reading `n` sectors of cluster `c` from the source:
true iff each of those sectors is all zero. -/
def clusterIsZero (env : Env) (c n : Nat) : Bool :=
  (List.range n).all fun i => env.srcSector (c * BACKUP_SECTORS_PER_CLUSTER + i) == 0

/-- Number of clusters covering `total` sectors:
`DIV_ROUND_UP(total_sectors, BACKUP_SECTORS_PER_CLUSTER)`. -/
def numClusters (total : Nat) : Nat := DIV_ROUND_UP total BACKUP_SECTORS_PER_CLUSTER

namespace Mainline

/-- Job state of src/block/backup.c visible to the claims: the HBitmap
progress bitmap (one bit per cluster), the per-slice `sectors_read`
counter, and the progress counter `common.offset` in bytes. -/
structure JobState where
  bitmap : Nat → Bool
  sectors_read : Nat
  offset : Nat

/-- The `hbitmap_set(job->bitmap, start, 1)` update. -/
def setBit (bm : Nat → Bool) (c : Nat) : Nat → Bool :=
  fun i => if i = c then true else bm i

/-- Result of a `backup_do_cow` invocation: final job state, the returned
`ret`, the value stored through `error_is_read` (written only on the error
paths; `none` when nothing was stored), and the trace of submitted I/O. -/
structure CowResult where
  st : JobState
  ret : Int
  err : Option Bool
  trace : List IOEvent

/-- The per-cluster loop of `backup_do_cow` (src/block/backup.c lines
128-179), iterating `start` from `cur` for `fuel = end - start` clusters:
skip when the bitmap bit is set; otherwise read `n` sectors from the
source (read-side failure aborts), issue write-zeroes when the buffer is
all zero and a plain write otherwise (write-side failure aborts), then set
the bitmap bit and publish progress. -/
def cowLoop (env : Env) (total : Nat) : JobState → Int → Nat → Nat → CowResult
  | st, ret, _, 0 => ⟨st, ret, none, []⟩
  | st, ret, cur, fuel + 1 =>
    if st.bitmap cur then
      cowLoop env total st ret (cur + 1) fuel
    else
      let n := nSec total cur
      let rr := env.readRet cur
      if rr < 0 then
        ⟨st, rr, some true, [.read (cur * BACKUP_SECTORS_PER_CLUSTER) n]⟩
      else
        let zero := clusterIsZero env cur n
        let wr := if zero then env.writeZeroRet cur else env.writeRet cur
        let wev := if zero then IOEvent.writeZeroes (cur * BACKUP_SECTORS_PER_CLUSTER) n
          else IOEvent.write (cur * BACKUP_SECTORS_PER_CLUSTER) n
        if wr < 0 then
          ⟨st, wr, some false, [.read (cur * BACKUP_SECTORS_PER_CLUSTER) n, wev]⟩
        else
          let st' : JobState :=
            ⟨setBit st.bitmap cur, st.sectors_read + n, st.offset + n * BDRV_SECTOR_SIZE⟩
          let r := cowLoop env total st' wr (cur + 1) fuel
          ⟨r.st, r.ret, r.err, .read (cur * BACKUP_SECTORS_PER_CLUSTER) n :: wev :: r.trace⟩

/-- `backup_do_cow` of src/block/backup.c: compute the covered cluster
range, query the source length (failure returns the error tagged
read-side), then run the per-cluster loop.  The overlap registry and flush
lock are serialization devices of the cooperative scheduler and have no
effect on the sequential state transformation embedded here. -/
def backup_do_cow (env : Env) (st : JobState) (sector_num nb_sectors : Nat) : CowResult :=
  let start := sector_num / BACKUP_SECTORS_PER_CLUSTER
  let endc := DIV_ROUND_UP (sector_num + nb_sectors) BACKUP_SECTORS_PER_CLUSTER
  if env.getLength < 0 then
    ⟨st, env.getLength, some true, []⟩
  else
    cowLoop env (env.getLength.toNat / BDRV_SECTOR_SIZE) st 0 start (endc - start)

/-- The tracked-request data handed to the before-write notifier. -/
structure BdrvTrackedRequest where
  sector_num : Nat
  nb_sectors : Nat

/-- `backup_before_write_notify`: forwards the tracked request's exact
sector range to `backup_do_cow` with a NULL `error_is_read` pointer.  The
C function returns only the `int` status; the state and trace components
here are its effects on the shared job. -/
def backup_before_write_notify (env : Env) (st : JobState) (req : BdrvTrackedRequest) :
    CowResult :=
  backup_do_cow env st req.sector_num req.nb_sectors

/-- Completion result delivered for the job.  Modelled from the spec:
`block_job_completed` and the job supervisor (not under src/) classify a
completion as a distinct "cancelled" result - not an error kind - when the
job's cancellation flag was observed; otherwise the sweep's final return
code is carried. -/
inductive Completion
  | cancelled (ret : Int)
  | completed (ret : Int)
  deriving DecidableEq

/-- Result of running the background sweep: final job state, the
completion classification, the clusters passed to `backup_do_cow` by the
sweep (in order), and the emitted event trace. -/
structure SweepResult where
  st : JobState
  outcome : Completion
  calls : List Nat
  trace : List IOEvent

/-- The sweep loop of `backup_run` (src/block/backup.c lines 268-306):
per iteration check cancellation, sleep (feeding `sectors_read` to the
rate limiter and resetting it when a speed is set), re-check cancellation,
invoke `backup_do_cow` for a one-sector range at the cluster start, and on
error consult the error-action policy: report breaks with the error, any
other action decrements `start` and retries the same cluster.  `iter`
counts loop iterations (for the cancellation oracles) and `fuel` bounds
the iteration count (retries make the loop non-structural). -/
def sweepLoop (env : Env) (endc : Nat) : JobState → Int → Nat → Nat → Nat → SweepResult
  | st, ret, _, _, 0 => ⟨st, .completed ret, [], []⟩
  | st, ret, start, iter, fuel + 1 =>
    if start < endc then
      if env.cancel1 iter then
        ⟨st, .cancelled ret, [], []⟩
      else
        let st1 := if env.speed ≠ 0 then { st with sectors_read := 0 } else st
        let sleepTrace := if env.speed ≠ 0 then [IOEvent.rateLimit st.sectors_read] else []
        if env.cancel2 iter then
          ⟨st1, .cancelled ret, [], sleepTrace⟩
        else
          let r := backup_do_cow env st1 (start * BACKUP_SECTORS_PER_CLUSTER) 1
          if r.ret < 0 then
            let isRead := r.err.getD true
            if env.errAction isRead (-r.ret) = .report then
              ⟨r.st, .completed r.ret, [start], sleepTrace ++ r.trace ++ [.errorAction isRead]⟩
            else
              let rest := sweepLoop env endc r.st r.ret start (iter + 1) fuel
              ⟨rest.st, rest.outcome, start :: rest.calls,
                sleepTrace ++ r.trace ++ .errorAction isRead :: rest.trace⟩
          else
            let rest := sweepLoop env endc r.st r.ret (start + 1) (iter + 1) fuel
            ⟨rest.st, rest.outcome, start :: rest.calls, sleepTrace ++ r.trace ++ rest.trace⟩
    else
      ⟨st, .completed ret, [], []⟩

/-- Initial job state: bitmap all zero (`hbitmap_alloc`), counters zero. -/
def initJobState : JobState := ⟨fun _ => false, 0, 0⟩

/-- `backup_run` of src/block/backup.c: sweep clusters `0 ..
DIV_ROUND_UP(length / BDRV_SECTOR_SIZE, BACKUP_SECTORS_PER_CLUSTER)` from
the freshly allocated all-zero bitmap. -/
def backup_run (env : Env) (fuel : Nat) : SweepResult :=
  sweepLoop env (numClusters (env.getLength.toNat / BDRV_SECTOR_SIZE)) initJobState 0 0 0 fuel

/-- An execution fragment consisting of a sequence of `backup_do_cow`
invocations (each a `(sector_num, nb_sectors)` range), as performed by any
interleaving of the sweep and pre-write interceptions at cluster
granularity. -/
def runCalls (env : Env) : JobState → List (Nat × Nat) → JobState
  | st, [] => st
  | st, p :: ps => runCalls env (backup_do_cow env st p.1 p.2).st ps

/-- Sum, over the first `numClusters` clusters, of the per-cluster sector
counts of clusters whose bit is newly set between bitmap `b1` and bitmap
`b2`. -/
def deltaSum (total : Nat) (b1 b2 : Nat → Bool) : Nat :=
  Finset.sum (Finset.range (numClusters total))
    (fun c => if !b1 c && b2 c then nSec total c else 0)

/-- The progress-accounting invariant of the mainline job: `offset` equals
512 times the summed sector counts of the set bits, and no bit beyond the
cluster count is set. -/
def offsetInv (env : Env) (st : JobState) : Prop :=
  st.offset = BDRV_SECTOR_SIZE *
      Finset.sum (Finset.range (numClusters (env.getLength.toNat / BDRV_SECTOR_SIZE)))
        (fun c => if st.bitmap c then nSec (env.getLength.toNat / BDRV_SECTOR_SIZE) c else 0) ∧
    ∀ c, numClusters (env.getLength.toNat / BDRV_SECTOR_SIZE) ≤ c → st.bitmap c = false

/-- Validity of an I/O event against a device of `total` sectors, per the
mainline cluster arithmetic: data events address a cluster-aligned range
of exactly `min(128, total - c*128)` sectors lying inside the device. -/
def evOk (total : Nat) : IOEvent → Prop
  | .read s n => ∃ c, s = c * BACKUP_SECTORS_PER_CLUSTER ∧
      c * BACKUP_SECTORS_PER_CLUSTER < total ∧
      n = min BACKUP_SECTORS_PER_CLUSTER (total - c * BACKUP_SECTORS_PER_CLUSTER) ∧ s + n ≤ total
  | .write s n => ∃ c, s = c * BACKUP_SECTORS_PER_CLUSTER ∧
      c * BACKUP_SECTORS_PER_CLUSTER < total ∧
      n = min BACKUP_SECTORS_PER_CLUSTER (total - c * BACKUP_SECTORS_PER_CLUSTER) ∧ s + n ≤ total
  | .writeZeroes s n => ∃ c, s = c * BACKUP_SECTORS_PER_CLUSTER ∧
      c * BACKUP_SECTORS_PER_CLUSTER < total ∧
      n = min BACKUP_SECTORS_PER_CLUSTER (total - c * BACKUP_SECTORS_PER_CLUSTER) ∧ s + n ≤ total
  | .rateLimit _ => True
  | .errorAction _ => True

end Mainline

namespace Variant

/-- `BITS_PER_LONG` on the 64-bit hosts the file targets. -/
def BITS_PER_LONG : Nat := 64

/-- `backup_get_bitmap` of src/backup.c: test bit `cluster_num %
BITS_PER_LONG` of word `cluster_num / BITS_PER_LONG` (`val & (1UL <<
bit)`). -/
def backup_get_bitmap (bitmap : List Nat) (cluster_num : Nat) : Bool :=
  Nat.testBit (bitmap.getD (cluster_num / BITS_PER_LONG) 0) (cluster_num % BITS_PER_LONG)

/-- `backup_set_bitmap` of src/backup.c; the clear branch `val &= ~(1UL <<
bit)` is rendered as subtracting the masked bit. -/
def backup_set_bitmap (bitmap : List Nat) (cluster_num : Nat) (dirty : Bool) : List Nat :=
  let idx := cluster_num / BITS_PER_LONG
  let bit := cluster_num % BITS_PER_LONG
  let val := bitmap.getD idx 0
  let val' := if dirty then val ||| (1 <<< bit) else val - (val &&& (1 <<< bit))
  bitmap.set idx val'

/-- Job state of src/backup.c: the flat long-array bitmap with its word
count, the per-slice `sectors_read` counter, and `common.offset`. -/
structure VJobState where
  bitmap : List Nat
  bitmap_size : Nat
  sectors_read : Nat
  offset : Nat
  deriving DecidableEq

/-- Result of a variant `backup_do_cow` invocation: final state, returned
`ret`, and the trace of submitted I/O.  This engine has no
`error_is_read` side channel. -/
structure VCowResult where
  st : VJobState
  ret : Int
  trace : List IOEvent
  deriving DecidableEq

/-- The per-cluster loop of the variant `backup_do_cow` (src/backup.c
lines 110-171, with `USE_ALLOCATION_CHECK` 0 as compiled): skip when the
bit is set, otherwise set the bit immediately ("avoid coroutine race"),
read the full cluster (`BACKUP_BLOCKS_PER_CLUSTER` sectors; failure
aborts), account `sectors_read`, and write the full cluster to the target
only when the buffer is not all zero (failure aborts). -/
def cowLoop (env : Env) : VJobState → Int → Nat → Nat → VCowResult
  | st, ret, _, 0 => ⟨st, ret, []⟩
  | st, ret, cur, fuel + 1 =>
    if backup_get_bitmap st.bitmap cur then
      cowLoop env st ret (cur + 1) fuel
    else
      let st0 := { st with bitmap := backup_set_bitmap st.bitmap cur true }
      let rr := env.readRet cur
      if rr < 0 then
        ⟨st0, rr, [.read (cur * BACKUP_SECTORS_PER_CLUSTER) BACKUP_SECTORS_PER_CLUSTER]⟩
      else
        let zero := clusterIsZero env cur BACKUP_SECTORS_PER_CLUSTER
        let st1 := { st0 with sectors_read := st0.sectors_read + BACKUP_SECTORS_PER_CLUSTER }
        if zero then
          let r := cowLoop env st1 rr (cur + 1) fuel
          ⟨r.st, r.ret,
            .read (cur * BACKUP_SECTORS_PER_CLUSTER) BACKUP_SECTORS_PER_CLUSTER :: r.trace⟩
        else
          let wr := env.writeRet cur
          if wr < 0 then
            ⟨st1, wr, [.read (cur * BACKUP_SECTORS_PER_CLUSTER) BACKUP_SECTORS_PER_CLUSTER,
              .write (cur * BACKUP_SECTORS_PER_CLUSTER) BACKUP_SECTORS_PER_CLUSTER]⟩
          else
            let r := cowLoop env st1 wr (cur + 1) fuel
            ⟨r.st, r.ret,
              .read (cur * BACKUP_SECTORS_PER_CLUSTER) BACKUP_SECTORS_PER_CLUSTER ::
                .write (cur * BACKUP_SECTORS_PER_CLUSTER) BACKUP_SECTORS_PER_CLUSTER :: r.trace⟩

/-- `backup_do_cow` of src/backup.c: compute the covered cluster range and
run the per-cluster loop.  This engine never queries the device length in
`do_cow` and always transfers whole clusters. -/
def backup_do_cow (env : Env) (st : VJobState) (sector_num nb_sectors : Nat) : VCowResult :=
  let start := sector_num / BACKUP_SECTORS_PER_CLUSTER
  let endc := DIV_ROUND_UP (sector_num + nb_sectors) BACKUP_SECTORS_PER_CLUSTER
  cowLoop env st 0 start (endc - start)

/-- Opaque stand-in for the `QEMUIOVector *qiov` argument the hooks
receive and ignore. -/
def QEMUIOVector : Type := Unit

/-- `backup_before_read` of src/backup.c: invoke `backup_do_cow` for the
exact sector range of the tracked guest read and return its status. -/
def backup_before_read (env : Env) (st : VJobState) (sector_num nb_sectors : Nat)
    (_qiov : QEMUIOVector) : VCowResult :=
  backup_do_cow env st sector_num nb_sectors

/-- `backup_before_write` of src/backup.c: invoke `backup_do_cow` for the
exact sector range of the tracked guest write and return its status. -/
def backup_before_write (env : Env) (st : VJobState) (sector_num nb_sectors : Nat)
    (_qiov : QEMUIOVector) : VCowResult :=
  backup_do_cow env st sector_num nb_sectors

/-- The fields of the variant `BlockJobType` relevant to hook
registration. -/
structure BlockJobType where
  job_type : String
  before_read : Option (Env → VJobState → Nat → Nat → QEMUIOVector → VCowResult)
  before_write : Option (Env → VJobState → Nat → Nat → QEMUIOVector → VCowResult)

/-- `backup_job_type` of src/backup.c: registers `backup_before_read` and
`backup_before_write` as the job's hooks. -/
def backup_job_type : BlockJobType :=
  { job_type := "backup"
    before_read := some backup_before_read
    before_write := some backup_before_write }

/-- Modelled from the spec: `bdrv_co_backup` (block layer, not under
src/) wraps the given range in a tracked request and routes it to the
job's CoW engine, i.e. invokes `backup_do_cow` for exactly that range
(spec 4.F step 4). -/
def bdrv_co_backup (env : Env) (st : VJobState) (sector_num nb_sectors : Nat) : VCowResult :=
  backup_do_cow env st sector_num nb_sectors

/-- Result of running the variant sweep. -/
structure VSweepResult where
  st : VJobState
  outcome : Mainline.Completion
  calls : List Nat
  trace : List IOEvent
  deriving DecidableEq

/-- The sweep loop of the variant `backup_run` (src/backup.c lines
233-273): per iteration check cancellation (`ret = -1` on cancellation, a
completion the job layer classifies as cancelled), sleep, re-check
cancellation, skip clusters whose bit is already set, invoke
`bdrv_co_backup` for a one-sector range, break on any error without
consulting any policy, and publish `offset += BACKUP_CLUSTER_SIZE` on
success. -/
def sweepLoop (env : Env) (endc : Nat) : VJobState → Int → Nat → Nat → Nat → VSweepResult
  | st, ret, _, _, 0 => ⟨st, .completed ret, [], []⟩
  | st, ret, start, iter, fuel + 1 =>
    if start < endc then
      if env.cancel1 iter then
        ⟨st, .cancelled (-1), [], []⟩
      else
        let st1 := if env.speed ≠ 0 then { st with sectors_read := 0 } else st
        let sleepTrace := if env.speed ≠ 0 then [IOEvent.rateLimit st.sectors_read] else []
        if env.cancel2 iter then
          ⟨st1, .cancelled (-1), [], sleepTrace⟩
        else if backup_get_bitmap st1.bitmap start then
          let rest := sweepLoop env endc st1 ret (start + 1) (iter + 1) fuel
          ⟨rest.st, rest.outcome, rest.calls, sleepTrace ++ rest.trace⟩
        else
          let r := bdrv_co_backup env st1 (start * BACKUP_SECTORS_PER_CLUSTER) 1
          if r.ret < 0 then
            ⟨r.st, .completed r.ret, [start], sleepTrace ++ r.trace⟩
          else
            let st2 := { r.st with offset := r.st.offset + BACKUP_CLUSTER_SIZE }
            let rest := sweepLoop env endc st2 r.ret (start + 1) (iter + 1) fuel
            ⟨rest.st, rest.outcome, start :: rest.calls, sleepTrace ++ r.trace ++ rest.trace⟩
    else
      ⟨st, .completed ret, [], []⟩

/-- Job state produced by the variant `backup_start` (src/backup.c lines
292-317): a zeroed long-array bitmap of `(len / BDRV_SECTOR_SIZE +
BACKUP_BLOCKS_PER_CLUSTER * BITS_PER_LONG - 1) / (BACKUP_BLOCKS_PER_CLUSTER
* BITS_PER_LONG)` words, counters zero. -/
def backup_start_state (env : Env) : VJobState :=
  let bitmap_size := (env.getLength.toNat / BDRV_SECTOR_SIZE +
    BACKUP_SECTORS_PER_CLUSTER * BITS_PER_LONG - 1) /
    (BACKUP_SECTORS_PER_CLUSTER * BITS_PER_LONG)
  ⟨List.replicate bitmap_size 0, bitmap_size, 0, 0⟩

/-- `backup_run` of src/backup.c: sweep clusters `0 ..
ceil(length_sectors / BACKUP_BLOCKS_PER_CLUSTER)` from the start state. -/
def backup_run (env : Env) (fuel : Nat) : VSweepResult :=
  sweepLoop env (numClusters (env.getLength.toNat / BDRV_SECTOR_SIZE))
    (backup_start_state env) 0 0 0 fuel

end Variant

/-- The target-write result chosen in one successful-read step of the
mainline loop for cluster `cur`: write-zeroes when the buffer is all zero,
plain write otherwise. -/
def stepWr (env : Env) (T cur : Nat) : Int :=
  if clusterIsZero env cur (nSec T cur) then env.writeZeroRet cur else env.writeRet cur

/-- The target-write event emitted in that step. -/
def stepWev (env : Env) (T cur : Nat) : IOEvent :=
  if clusterIsZero env cur (nSec T cur) then
    IOEvent.writeZeroes (cur * BACKUP_SECTORS_PER_CLUSTER) (nSec T cur)
  else IOEvent.write (cur * BACKUP_SECTORS_PER_CLUSTER) (nSec T cur)

/-- The state after a fully successful step of the mainline loop for
cluster `cur`: bit set, counters published. -/
def stepSt (env : Env) (T cur : Nat) (st : Mainline.JobState) : Mainline.JobState :=
  ⟨Mainline.setBit st.bitmap cur, st.sectors_read + nSec T cur,
    st.offset + nSec T cur * BDRV_SECTOR_SIZE⟩

/-- Job state after the sweep's per-iteration sleep: `sectors_read` is
reset when a speed is configured. -/
def sleepSt (env : Env) (st : Mainline.JobState) : Mainline.JobState :=
  if env.speed ≠ 0 then { st with sectors_read := 0 } else st

/-- Events of the sweep's per-iteration sleep: `sectors_read` is fed to
`ratelimit_calculate_delay` when a speed is configured. -/
def sleepTr (env : Env) (st : Mainline.JobState) : List IOEvent :=
  if env.speed ≠ 0 then [IOEvent.rateLimit st.sectors_read] else []

def sleepStV (env : Env) (st : Variant.VJobState) : Variant.VJobState :=
  if env.speed ≠ 0 then { st with sectors_read := 0 } else st

def sleepTrV (env : Env) (st : Variant.VJobState) : List IOEvent :=
  if env.speed ≠ 0 then [IOEvent.rateLimit st.sectors_read] else []

def envW : Env :=
  { getLength := 66048
    srcSector := fun s => if s = 0 then 7 else 0
    readRet := fun _ => 0
    writeRet := fun _ => 0
    writeZeroRet := fun _ => 0
    speed := 0
    cancel1 := fun _ => false
    cancel2 := fun _ => false
    errAction := fun _ _ => .report }

def envNegLen : Env :=
  { getLength := -9
    srcSector := fun _ => 0
    readRet := fun _ => 0
    writeRet := fun _ => 0
    writeZeroRet := fun _ => 0
    speed := 0
    cancel1 := fun _ => false
    cancel2 := fun _ => false
    errAction := fun _ _ => .report }

def envCancelW : Env :=
  { getLength := 65536
    srcSector := fun _ => 1
    readRet := fun _ => 0
    writeRet := fun _ => 0
    writeZeroRet := fun _ => 0
    speed := 0
    cancel1 := fun _ => true
    cancel2 := fun _ => false
    errAction := fun _ _ => .report }

def envReadErr : Env :=
  { getLength := 65536
    srcSector := fun _ => 1
    readRet := fun _ => -5
    writeRet := fun _ => 0
    writeZeroRet := fun _ => 0
    speed := 0
    cancel1 := fun _ => false
    cancel2 := fun _ => false
    errAction := fun _ _ => .report }

def envVShort : Env :=
  { getLength := 512
    srcSector := fun _ => 1
    readRet := fun _ => 0
    writeRet := fun _ => 0
    writeZeroRet := fun _ => 0
    speed := 0
    cancel1 := fun _ => false
    cancel2 := fun _ => false
    errAction := fun _ _ => .report }

def envVZero : Env :=
  { getLength := 65536
    srcSector := fun _ => 0
    readRet := fun _ => 0
    writeRet := fun _ => 0
    writeZeroRet := fun _ => 0
    speed := 0
    cancel1 := fun _ => false
    cancel2 := fun _ => false
    errAction := fun _ _ => .report }

def envVIgnore : Env :=
  { getLength := 512
    srcSector := fun _ => 1
    readRet := fun _ => -5
    writeRet := fun _ => 0
    writeZeroRet := fun _ => 0
    speed := 0
    cancel1 := fun _ => false
    cancel2 := fun _ => false
    errAction := fun _ _ => .ignore }

theorem SPC_eq : BACKUP_SECTORS_PER_CLUSTER = 128 := rfl

theorem lt_numClusters_iff (T c : Nat) :
    c < numClusters T ↔ c * BACKUP_SECTORS_PER_CLUSTER < T := by
  show c < (T + 128 - 1) / 128 ↔ c * 128 < T
  rw [Nat.lt_iff_add_one_le, Nat.le_div_iff_mul_le (by norm_num : 0 < 128)]
  omega

theorem nSec_eq {T c : Nat} (h : c * BACKUP_SECTORS_PER_CLUSTER < T) :
    nSec T c = min BACKUP_SECTORS_PER_CLUSTER (T - c * BACKUP_SECTORS_PER_CLUSTER) := by
  have h' : c * 128 < T := h
  show (min (128 : Int) ((T : Int) - (c : Int) * 128)).toNat = min 128 (T - c * 128)
  omega

theorem nSec_eq_zero {T c : Nat} (h : T ≤ c * BACKUP_SECTORS_PER_CLUSTER) : nSec T c = 0 := by
  have h' : T ≤ c * 128 := h
  show (min (128 : Int) ((T : Int) - (c : Int) * 128)).toNat = 0
  omega

theorem sum_range_nSec (T K : Nat) :
    Finset.sum (Finset.range K) (fun c => nSec T c) = min T (BACKUP_SECTORS_PER_CLUSTER * K) := by
  induction K with
  | zero => simp
  | succ K ih =>
    rw [Finset.sum_range_succ, ih]
    rcases le_or_lt T (K * BACKUP_SECTORS_PER_CLUSTER) with h | h
    · rw [nSec_eq_zero h]
      rw [SPC_eq] at *
      omega
    · rw [nSec_eq h]
      rw [SPC_eq] at *
      omega

theorem sum_if_split {K c : Nat} (g : Nat → Nat) (p q : Nat → Bool) (hc : c < K)
    (hpq : ∀ i, i ≠ c → p i = q i) (hp : p c = true) (hq : q c = false) :
    Finset.sum (Finset.range K) (fun i => if p i then g i else 0) =
      g c + Finset.sum (Finset.range K) (fun i => if q i then g i else 0) := by
  have hcm : c ∈ Finset.range K := Finset.mem_range.mpr hc
  rw [← Finset.sum_erase_add _ _ hcm, ← Finset.sum_erase_add _ _ hcm]
  have he : ∀ i ∈ (Finset.range K).erase c,
      (if p i then g i else 0) = (if q i then g i else 0) := by
    intro i hi
    rw [hpq i (Finset.ne_of_mem_erase hi)]
  rw [Finset.sum_congr rfl he, hp, hq]
  simp [Nat.add_comm]

theorem sum_if_mono_split (K : Nat) (g : Nat → Nat) (b1 b2 : Nat → Bool)
    (hmono : ∀ i, b1 i = true → b2 i = true) :
    Finset.sum (Finset.range K) (fun i => if b2 i then g i else 0) =
      Finset.sum (Finset.range K) (fun i => if b1 i then g i else 0) +
      Finset.sum (Finset.range K) (fun i => if !b1 i && b2 i then g i else 0) := by
  rw [← Finset.sum_add_distrib]
  refine Finset.sum_congr rfl fun i _ => ?_
  cases h1 : b1 i with
  | false => cases h2 : b2 i <;> simp [h1, h2]
  | true => simp [h1, hmono i h1]

theorem cowLoop_zero (env : Env) (T : Nat) (st : Mainline.JobState) (ret : Int) (cur : Nat) :
    Mainline.cowLoop env T st ret cur 0 = ⟨st, ret, none, []⟩ := rfl

theorem cowLoop_skip (env : Env) (T : Nat) (st : Mainline.JobState) (ret : Int)
    (cur fuel : Nat) (hb : st.bitmap cur = true) :
    Mainline.cowLoop env T st ret cur (fuel + 1) = Mainline.cowLoop env T st ret (cur + 1) fuel := by
  simp [Mainline.cowLoop, hb]

theorem cowLoop_read_fail (env : Env) (T : Nat) (st : Mainline.JobState) (ret : Int)
    (cur fuel : Nat) (hb : st.bitmap cur = false) (hr : env.readRet cur < 0) :
    Mainline.cowLoop env T st ret cur (fuel + 1) =
      ⟨st, env.readRet cur, some true,
        [.read (cur * BACKUP_SECTORS_PER_CLUSTER) (nSec T cur)]⟩ := by
  simp [Mainline.cowLoop, hb, hr]

theorem cowLoop_write_fail (env : Env) (T : Nat) (st : Mainline.JobState) (ret : Int)
    (cur fuel : Nat) (hb : st.bitmap cur = false) (hr : ¬env.readRet cur < 0)
    (hw : stepWr env T cur < 0) :
    Mainline.cowLoop env T st ret cur (fuel + 1) =
      ⟨st, stepWr env T cur, some false,
        [.read (cur * BACKUP_SECTORS_PER_CLUSTER) (nSec T cur), stepWev env T cur]⟩ := by
  unfold stepWr stepWev at *
  simp only [Mainline.cowLoop, hb, Bool.false_eq_true, if_false, hr, ite_false]
  split <;> simp_all

theorem cowLoop_success (env : Env) (T : Nat) (st : Mainline.JobState) (ret : Int)
    (cur fuel : Nat) (hb : st.bitmap cur = false) (hr : ¬env.readRet cur < 0)
    (hw : ¬stepWr env T cur < 0) :
    Mainline.cowLoop env T st ret cur (fuel + 1) =
      ⟨(Mainline.cowLoop env T (stepSt env T cur st) (stepWr env T cur) (cur + 1) fuel).st,
        (Mainline.cowLoop env T (stepSt env T cur st) (stepWr env T cur) (cur + 1) fuel).ret,
        (Mainline.cowLoop env T (stepSt env T cur st) (stepWr env T cur) (cur + 1) fuel).err,
        .read (cur * BACKUP_SECTORS_PER_CLUSTER) (nSec T cur) :: stepWev env T cur ::
          (Mainline.cowLoop env T (stepSt env T cur st) (stepWr env T cur) (cur + 1) fuel).trace⟩ := by
  unfold stepWr stepWev stepSt at *
  simp only [Mainline.cowLoop, hb, Bool.false_eq_true, if_false, hr, ite_false]
  split <;> simp_all

theorem cowLoop_bit_mono (env : Env) (T : Nat) :
    ∀ (fuel cur : Nat) (st : Mainline.JobState) (ret : Int) (c : Nat),
      st.bitmap c = true → (Mainline.cowLoop env T st ret cur fuel).st.bitmap c = true := by
  intro fuel
  induction fuel with
  | zero => intro cur st ret c h; simpa [cowLoop_zero] using h
  | succ fuel ih =>
    intro cur st ret c h
    by_cases hb : st.bitmap cur = true
    · rw [cowLoop_skip env T st ret cur fuel hb]; exact ih _ _ _ _ h
    · rw [Bool.not_eq_true] at hb
      by_cases hr : env.readRet cur < 0
      · rw [cowLoop_read_fail env T st ret cur fuel hb hr]; exact h
      · by_cases hw : stepWr env T cur < 0
        · rw [cowLoop_write_fail env T st ret cur fuel hb hr hw]; exact h
        · rw [cowLoop_success env T st ret cur fuel hb hr hw]
          refine ih _ _ _ _ ?_
          simp [stepSt, Mainline.setBit, h]

/-- New bits in a mainline loop run carry success evidence: the cluster
lies in the processed window, its source read succeeded, and the matching
target operation succeeded and is in the trace. -/
theorem cowLoop_new_bit (env : Env) (T : Nat) :
    ∀ (fuel cur : Nat) (st : Mainline.JobState) (ret : Int) (c : Nat),
      st.bitmap c = false →
      (Mainline.cowLoop env T st ret cur fuel).st.bitmap c = true →
      cur ≤ c ∧ c < cur + fuel ∧ 0 ≤ env.readRet c ∧ 0 ≤ stepWr env T c ∧
        stepWev env T c ∈ (Mainline.cowLoop env T st ret cur fuel).trace := by
  intro fuel
  induction fuel with
  | zero => intro cur st ret c h0 h1; rw [cowLoop_zero] at h1; rw [h0] at h1; cases h1
  | succ fuel ih =>
    intro cur st ret c h0 h1
    by_cases hb : st.bitmap cur = true
    · rw [cowLoop_skip env T st ret cur fuel hb] at h1 ⊢
      obtain ⟨a, b, rest⟩ := ih _ _ _ _ h0 h1
      have hcc : c ≠ cur := fun he => by rw [he, hb] at h0; cases h0
      exact ⟨by omega, by omega, rest⟩
    · rw [Bool.not_eq_true] at hb
      by_cases hr : env.readRet cur < 0
      · rw [cowLoop_read_fail env T st ret cur fuel hb hr] at h1
        rw [h0] at h1; cases h1
      · by_cases hw : stepWr env T cur < 0
        · rw [cowLoop_write_fail env T st ret cur fuel hb hr hw] at h1
          rw [h0] at h1; cases h1
        · rw [cowLoop_success env T st ret cur fuel hb hr hw] at h1 ⊢
          by_cases hcc : c = cur
          · subst hcc
            refine ⟨le_refl c, by omega, by omega, by omega, ?_⟩
            exact List.mem_cons_of_mem _ (List.mem_cons_self _ _)
          · have h0' : (stepSt env T cur st).bitmap c = false := by
              simpa [stepSt, Mainline.setBit, hcc] using h0
            obtain ⟨a, b, hr', hw', hm⟩ := ih _ _ _ _ h0' h1
            exact ⟨by omega, by omega, hr', hw',
              List.mem_cons_of_mem _ (List.mem_cons_of_mem _ hm)⟩

theorem deltaSum_self (T : Nat) (b : Nat → Bool) : Mainline.deltaSum T b b = 0 := by
  unfold Mainline.deltaSum
  refine Finset.sum_eq_zero fun i _ => ?_
  cases b i <;> simp

theorem cowLoop_delta (env : Env) (T : Nat) :
    ∀ (fuel cur : Nat) (st : Mainline.JobState) (ret : Int),
      cur + fuel ≤ numClusters T →
      (Mainline.cowLoop env T st ret cur fuel).st.offset =
          st.offset + BDRV_SECTOR_SIZE *
            Mainline.deltaSum T st.bitmap (Mainline.cowLoop env T st ret cur fuel).st.bitmap ∧
        (Mainline.cowLoop env T st ret cur fuel).st.sectors_read =
          st.sectors_read +
            Mainline.deltaSum T st.bitmap (Mainline.cowLoop env T st ret cur fuel).st.bitmap := by
  intro fuel
  induction fuel with
  | zero => intro cur st ret _; rw [cowLoop_zero]; simp [deltaSum_self]
  | succ fuel ih =>
    intro cur st ret hK
    by_cases hb : st.bitmap cur = true
    · rw [cowLoop_skip env T st ret cur fuel hb]
      exact ih (cur + 1) st ret (by omega)
    · rw [Bool.not_eq_true] at hb
      by_cases hr : env.readRet cur < 0
      · rw [cowLoop_read_fail env T st ret cur fuel hb hr]; simp [deltaSum_self]
      · by_cases hw : stepWr env T cur < 0
        · rw [cowLoop_write_fail env T st ret cur fuel hb hr hw]; simp [deltaSum_self]
        · rw [cowLoop_success env T st ret cur fuel hb hr hw]
          obtain ⟨ho, hs⟩ := ih (cur + 1) (stepSt env T cur st) (stepWr env T cur) (by omega)
          have hrc : (Mainline.cowLoop env T (stepSt env T cur st) (stepWr env T cur)
              (cur + 1) fuel).st.bitmap cur = true :=
            cowLoop_bit_mono env T fuel (cur + 1) _ _ cur (by simp [stepSt, Mainline.setBit])
          have hsplit : Mainline.deltaSum T st.bitmap
              (Mainline.cowLoop env T (stepSt env T cur st) (stepWr env T cur)
                (cur + 1) fuel).st.bitmap =
              nSec T cur + Mainline.deltaSum T (stepSt env T cur st).bitmap
                (Mainline.cowLoop env T (stepSt env T cur st) (stepWr env T cur)
                  (cur + 1) fuel).st.bitmap := by
            unfold Mainline.deltaSum
            refine sum_if_split (nSec T) _ _ (show cur < numClusters T by omega) ?_ ?_ ?_
            · intro i hi; simp [stepSt, Mainline.setBit, hi]
            · simp [hb, hrc]
            · simp [stepSt, Mainline.setBit]
          refine ⟨?_, ?_⟩
          · rw [ho, hsplit, Nat.mul_add]
            simp only [stepSt, BDRV_SECTOR_SIZE]
            omega
          · rw [hs, hsplit]
            simp only [stepSt]
            omega

theorem swM_done (env : Env) (endc : Nat) (st : Mainline.JobState) (ret : Int)
    (start iter fuel : Nat) (h : ¬start < endc) :
    Mainline.sweepLoop env endc st ret start iter (fuel + 1) = ⟨st, .completed ret, [], []⟩ := by
  simp [Mainline.sweepLoop, h]

theorem swM_cancel1 (env : Env) (endc : Nat) (st : Mainline.JobState) (ret : Int)
    (start iter fuel : Nat) (h : start < endc) (h1 : env.cancel1 iter = true) :
    Mainline.sweepLoop env endc st ret start iter (fuel + 1) = ⟨st, .cancelled ret, [], []⟩ := by
  simp [Mainline.sweepLoop, h, h1]

theorem swM_cancel2 (env : Env) (endc : Nat) (st : Mainline.JobState) (ret : Int)
    (start iter fuel : Nat) (h : start < endc) (h1 : env.cancel1 iter = false)
    (h2 : env.cancel2 iter = true) :
    Mainline.sweepLoop env endc st ret start iter (fuel + 1) =
      ⟨sleepSt env st, .cancelled ret, [], sleepTr env st⟩ := by
  simp [Mainline.sweepLoop, h, h1, h2, sleepSt, sleepTr]

/-- One full non-cancelled iteration of the mainline sweep loop,
conditions still unresolved. -/
theorem swM_step (env : Env) (endc : Nat) (st : Mainline.JobState) (ret : Int)
    (start iter fuel : Nat) (h : start < endc) (h1 : env.cancel1 iter = false)
    (h2 : env.cancel2 iter = false) :
    Mainline.sweepLoop env endc st ret start iter (fuel + 1) =
      if (Mainline.backup_do_cow env (sleepSt env st)
          (start * BACKUP_SECTORS_PER_CLUSTER) 1).ret < 0 then
        if env.errAction ((Mainline.backup_do_cow env (sleepSt env st)
              (start * BACKUP_SECTORS_PER_CLUSTER) 1).err.getD true)
            (-(Mainline.backup_do_cow env (sleepSt env st)
              (start * BACKUP_SECTORS_PER_CLUSTER) 1).ret) = .report then
          ⟨(Mainline.backup_do_cow env (sleepSt env st) (start * BACKUP_SECTORS_PER_CLUSTER) 1).st,
            .completed (Mainline.backup_do_cow env (sleepSt env st)
              (start * BACKUP_SECTORS_PER_CLUSTER) 1).ret,
            [start],
            sleepTr env st ++ (Mainline.backup_do_cow env (sleepSt env st)
                (start * BACKUP_SECTORS_PER_CLUSTER) 1).trace ++
              [.errorAction ((Mainline.backup_do_cow env (sleepSt env st)
                (start * BACKUP_SECTORS_PER_CLUSTER) 1).err.getD true)]⟩
        else
          ⟨(Mainline.sweepLoop env endc
              (Mainline.backup_do_cow env (sleepSt env st)
                (start * BACKUP_SECTORS_PER_CLUSTER) 1).st
              (Mainline.backup_do_cow env (sleepSt env st)
                (start * BACKUP_SECTORS_PER_CLUSTER) 1).ret
              start (iter + 1) fuel).st,
            (Mainline.sweepLoop env endc
              (Mainline.backup_do_cow env (sleepSt env st)
                (start * BACKUP_SECTORS_PER_CLUSTER) 1).st
              (Mainline.backup_do_cow env (sleepSt env st)
                (start * BACKUP_SECTORS_PER_CLUSTER) 1).ret
              start (iter + 1) fuel).outcome,
            start :: (Mainline.sweepLoop env endc
              (Mainline.backup_do_cow env (sleepSt env st)
                (start * BACKUP_SECTORS_PER_CLUSTER) 1).st
              (Mainline.backup_do_cow env (sleepSt env st)
                (start * BACKUP_SECTORS_PER_CLUSTER) 1).ret
              start (iter + 1) fuel).calls,
            sleepTr env st ++ (Mainline.backup_do_cow env (sleepSt env st)
                (start * BACKUP_SECTORS_PER_CLUSTER) 1).trace ++
              .errorAction ((Mainline.backup_do_cow env (sleepSt env st)
                (start * BACKUP_SECTORS_PER_CLUSTER) 1).err.getD true) ::
              (Mainline.sweepLoop env endc
                (Mainline.backup_do_cow env (sleepSt env st)
                  (start * BACKUP_SECTORS_PER_CLUSTER) 1).st
                (Mainline.backup_do_cow env (sleepSt env st)
                  (start * BACKUP_SECTORS_PER_CLUSTER) 1).ret
                start (iter + 1) fuel).trace⟩
      else
        ⟨(Mainline.sweepLoop env endc
            (Mainline.backup_do_cow env (sleepSt env st)
              (start * BACKUP_SECTORS_PER_CLUSTER) 1).st
            (Mainline.backup_do_cow env (sleepSt env st)
              (start * BACKUP_SECTORS_PER_CLUSTER) 1).ret
            (start + 1) (iter + 1) fuel).st,
          (Mainline.sweepLoop env endc
            (Mainline.backup_do_cow env (sleepSt env st)
              (start * BACKUP_SECTORS_PER_CLUSTER) 1).st
            (Mainline.backup_do_cow env (sleepSt env st)
              (start * BACKUP_SECTORS_PER_CLUSTER) 1).ret
            (start + 1) (iter + 1) fuel).outcome,
          start :: (Mainline.sweepLoop env endc
            (Mainline.backup_do_cow env (sleepSt env st)
              (start * BACKUP_SECTORS_PER_CLUSTER) 1).st
            (Mainline.backup_do_cow env (sleepSt env st)
              (start * BACKUP_SECTORS_PER_CLUSTER) 1).ret
            (start + 1) (iter + 1) fuel).calls,
          sleepTr env st ++ (Mainline.backup_do_cow env (sleepSt env st)
              (start * BACKUP_SECTORS_PER_CLUSTER) 1).trace ++
            (Mainline.sweepLoop env endc
              (Mainline.backup_do_cow env (sleepSt env st)
                (start * BACKUP_SECTORS_PER_CLUSTER) 1).st
              (Mainline.backup_do_cow env (sleepSt env st)
                (start * BACKUP_SECTORS_PER_CLUSTER) 1).ret
              (start + 1) (iter + 1) fuel).trace⟩ := by
  by_cases hsp : env.speed = 0 <;>
    simp [Mainline.sweepLoop, h, h1, h2, sleepSt, sleepTr, hsp]

theorem swM_err_report (env : Env) (endc : Nat) (st : Mainline.JobState) (ret : Int)
    (start iter fuel : Nat) (h : start < endc) (h1 : env.cancel1 iter = false)
    (h2 : env.cancel2 iter = false)
    (hr : (Mainline.backup_do_cow env (sleepSt env st)
      (start * BACKUP_SECTORS_PER_CLUSTER) 1).ret < 0)
    (ha : env.errAction ((Mainline.backup_do_cow env (sleepSt env st)
        (start * BACKUP_SECTORS_PER_CLUSTER) 1).err.getD true)
      (-(Mainline.backup_do_cow env (sleepSt env st)
        (start * BACKUP_SECTORS_PER_CLUSTER) 1).ret) = .report) :
    Mainline.sweepLoop env endc st ret start iter (fuel + 1) =
      ⟨(Mainline.backup_do_cow env (sleepSt env st) (start * BACKUP_SECTORS_PER_CLUSTER) 1).st,
        .completed (Mainline.backup_do_cow env (sleepSt env st)
          (start * BACKUP_SECTORS_PER_CLUSTER) 1).ret,
        [start],
        sleepTr env st ++ (Mainline.backup_do_cow env (sleepSt env st)
            (start * BACKUP_SECTORS_PER_CLUSTER) 1).trace ++
          [.errorAction ((Mainline.backup_do_cow env (sleepSt env st)
            (start * BACKUP_SECTORS_PER_CLUSTER) 1).err.getD true)]⟩ := by
  rw [swM_step env endc st ret start iter fuel h h1 h2, if_pos hr, if_pos ha]

theorem swM_err_retry (env : Env) (endc : Nat) (st : Mainline.JobState) (ret : Int)
    (start iter fuel : Nat) (h : start < endc) (h1 : env.cancel1 iter = false)
    (h2 : env.cancel2 iter = false)
    (hr : (Mainline.backup_do_cow env (sleepSt env st)
      (start * BACKUP_SECTORS_PER_CLUSTER) 1).ret < 0)
    (ha : ¬env.errAction ((Mainline.backup_do_cow env (sleepSt env st)
        (start * BACKUP_SECTORS_PER_CLUSTER) 1).err.getD true)
      (-(Mainline.backup_do_cow env (sleepSt env st)
        (start * BACKUP_SECTORS_PER_CLUSTER) 1).ret) = .report) :
    Mainline.sweepLoop env endc st ret start iter (fuel + 1) =
      ⟨(Mainline.sweepLoop env endc
          (Mainline.backup_do_cow env (sleepSt env st) (start * BACKUP_SECTORS_PER_CLUSTER) 1).st
          (Mainline.backup_do_cow env (sleepSt env st) (start * BACKUP_SECTORS_PER_CLUSTER) 1).ret
          start (iter + 1) fuel).st,
        (Mainline.sweepLoop env endc
          (Mainline.backup_do_cow env (sleepSt env st) (start * BACKUP_SECTORS_PER_CLUSTER) 1).st
          (Mainline.backup_do_cow env (sleepSt env st) (start * BACKUP_SECTORS_PER_CLUSTER) 1).ret
          start (iter + 1) fuel).outcome,
        start :: (Mainline.sweepLoop env endc
          (Mainline.backup_do_cow env (sleepSt env st) (start * BACKUP_SECTORS_PER_CLUSTER) 1).st
          (Mainline.backup_do_cow env (sleepSt env st) (start * BACKUP_SECTORS_PER_CLUSTER) 1).ret
          start (iter + 1) fuel).calls,
        sleepTr env st ++ (Mainline.backup_do_cow env (sleepSt env st)
            (start * BACKUP_SECTORS_PER_CLUSTER) 1).trace ++
          .errorAction ((Mainline.backup_do_cow env (sleepSt env st)
            (start * BACKUP_SECTORS_PER_CLUSTER) 1).err.getD true) ::
          (Mainline.sweepLoop env endc
            (Mainline.backup_do_cow env (sleepSt env st) (start * BACKUP_SECTORS_PER_CLUSTER) 1).st
            (Mainline.backup_do_cow env (sleepSt env st) (start * BACKUP_SECTORS_PER_CLUSTER) 1).ret
            start (iter + 1) fuel).trace⟩ := by
  rw [swM_step env endc st ret start iter fuel h h1 h2, if_pos hr, if_neg ha]

theorem swM_ok (env : Env) (endc : Nat) (st : Mainline.JobState) (ret : Int)
    (start iter fuel : Nat) (h : start < endc) (h1 : env.cancel1 iter = false)
    (h2 : env.cancel2 iter = false)
    (hr : ¬(Mainline.backup_do_cow env (sleepSt env st)
      (start * BACKUP_SECTORS_PER_CLUSTER) 1).ret < 0) :
    Mainline.sweepLoop env endc st ret start iter (fuel + 1) =
      ⟨(Mainline.sweepLoop env endc
          (Mainline.backup_do_cow env (sleepSt env st) (start * BACKUP_SECTORS_PER_CLUSTER) 1).st
          (Mainline.backup_do_cow env (sleepSt env st) (start * BACKUP_SECTORS_PER_CLUSTER) 1).ret
          (start + 1) (iter + 1) fuel).st,
        (Mainline.sweepLoop env endc
          (Mainline.backup_do_cow env (sleepSt env st) (start * BACKUP_SECTORS_PER_CLUSTER) 1).st
          (Mainline.backup_do_cow env (sleepSt env st) (start * BACKUP_SECTORS_PER_CLUSTER) 1).ret
          (start + 1) (iter + 1) fuel).outcome,
        start :: (Mainline.sweepLoop env endc
          (Mainline.backup_do_cow env (sleepSt env st) (start * BACKUP_SECTORS_PER_CLUSTER) 1).st
          (Mainline.backup_do_cow env (sleepSt env st) (start * BACKUP_SECTORS_PER_CLUSTER) 1).ret
          (start + 1) (iter + 1) fuel).calls,
        sleepTr env st ++ (Mainline.backup_do_cow env (sleepSt env st)
            (start * BACKUP_SECTORS_PER_CLUSTER) 1).trace ++
          (Mainline.sweepLoop env endc
            (Mainline.backup_do_cow env (sleepSt env st) (start * BACKUP_SECTORS_PER_CLUSTER) 1).st
            (Mainline.backup_do_cow env (sleepSt env st) (start * BACKUP_SECTORS_PER_CLUSTER) 1).ret
            (start + 1) (iter + 1) fuel).trace⟩ := by
  rw [swM_step env endc st ret start iter fuel h h1 h2, if_neg hr]

theorem cur_le_endc (s nb : Nat) :
    s / BACKUP_SECTORS_PER_CLUSTER ≤ DIV_ROUND_UP (s + nb) BACKUP_SECTORS_PER_CLUSTER := by
  show s / 128 ≤ (s + nb + 128 - 1) / 128
  exact Nat.div_le_div_right (by omega)

theorem endc_le_numClusters {s nb T : Nat} (h : s + nb ≤ T) :
    DIV_ROUND_UP (s + nb) BACKUP_SECTORS_PER_CLUSTER ≤ numClusters T := by
  show (s + nb + 128 - 1) / 128 ≤ (T + 128 - 1) / 128
  exact Nat.div_le_div_right (by omega)

theorem do_cow_bit_mono (env : Env) (st : Mainline.JobState) (s nb c : Nat)
    (h : st.bitmap c = true) :
    (Mainline.backup_do_cow env st s nb).st.bitmap c = true := by
  by_cases hg : env.getLength < 0
  · simpa [Mainline.backup_do_cow, hg] using h
  · simp only [Mainline.backup_do_cow, hg, if_false]
    exact cowLoop_bit_mono env _ _ _ st 0 c h

theorem do_cow_new_bit (env : Env) (st : Mainline.JobState) (s nb c : Nat)
    (h0 : st.bitmap c = false)
    (h1 : (Mainline.backup_do_cow env st s nb).st.bitmap c = true) :
    s / BACKUP_SECTORS_PER_CLUSTER ≤ c ∧
      c < DIV_ROUND_UP (s + nb) BACKUP_SECTORS_PER_CLUSTER ∧
      0 ≤ env.readRet c ∧
      0 ≤ stepWr env (env.getLength.toNat / BDRV_SECTOR_SIZE) c ∧
      stepWev env (env.getLength.toNat / BDRV_SECTOR_SIZE) c ∈
        (Mainline.backup_do_cow env st s nb).trace := by
  by_cases hg : env.getLength < 0
  · rw [Mainline.backup_do_cow] at h1
    simp only [hg, if_true] at h1
    rw [h0] at h1; cases h1
  · rw [Mainline.backup_do_cow] at h1 ⊢
    simp only [hg, if_false] at h1 ⊢
    obtain ⟨ha, hb, hc⟩ := cowLoop_new_bit env _ _ _ st 0 c h0 h1
    have := cur_le_endc s nb
    exact ⟨ha, by omega, hc⟩

theorem do_cow_delta (env : Env) (st : Mainline.JobState) (s nb : Nat)
    (h : s + nb ≤ env.getLength.toNat / BDRV_SECTOR_SIZE) :
    (Mainline.backup_do_cow env st s nb).st.offset =
        st.offset + BDRV_SECTOR_SIZE *
          Mainline.deltaSum (env.getLength.toNat / BDRV_SECTOR_SIZE) st.bitmap
            (Mainline.backup_do_cow env st s nb).st.bitmap ∧
      (Mainline.backup_do_cow env st s nb).st.sectors_read =
        st.sectors_read +
          Mainline.deltaSum (env.getLength.toNat / BDRV_SECTOR_SIZE) st.bitmap
            (Mainline.backup_do_cow env st s nb).st.bitmap := by
  by_cases hg : env.getLength < 0
  · simp [Mainline.backup_do_cow, hg, deltaSum_self]
  · simp only [Mainline.backup_do_cow, hg, if_false]
    refine cowLoop_delta env _ _ _ st 0 ?_
    have h1 := cur_le_endc s nb
    have h2 := endc_le_numClusters h
    omega

theorem offsetInv_init (env : Env) : Mainline.offsetInv env Mainline.initJobState := by
  refine ⟨?_, fun c _ => rfl⟩
  simp [Mainline.initJobState]

theorem offsetInv_le_len (env : Env) (st : Mainline.JobState)
    (h : Mainline.offsetInv env st) : st.offset ≤ env.getLength.toNat := by
  obtain ⟨h1, _⟩ := h
  have hsum : Finset.sum
      (Finset.range (numClusters (env.getLength.toNat / BDRV_SECTOR_SIZE)))
      (fun c => if st.bitmap c then nSec (env.getLength.toNat / BDRV_SECTOR_SIZE) c else 0) ≤
      Finset.sum (Finset.range (numClusters (env.getLength.toNat / BDRV_SECTOR_SIZE)))
        (fun c => nSec (env.getLength.toNat / BDRV_SECTOR_SIZE) c) :=
    Finset.sum_le_sum fun i _ => by split <;> simp
  rw [sum_range_nSec] at hsum
  have h128 : env.getLength.toNat / BDRV_SECTOR_SIZE ≤
      BACKUP_SECTORS_PER_CLUSTER * numClusters (env.getLength.toNat / BDRV_SECTOR_SIZE) := by
    show env.getLength.toNat / 512 ≤ 128 * ((env.getLength.toNat / 512 + 128 - 1) / 128)
    have hd := Nat.div_add_mod (env.getLength.toNat / 512 + 127) 128
    have hm : (env.getLength.toNat / 512 + 127) % 128 < 128 := Nat.mod_lt _ (by norm_num)
    omega
  have hT : BDRV_SECTOR_SIZE * (env.getLength.toNat / BDRV_SECTOR_SIZE) ≤
      env.getLength.toNat := by
    show 512 * (env.getLength.toNat / 512) ≤ env.getLength.toNat
    have hd := Nat.div_add_mod env.getLength.toNat 512
    omega
  calc st.offset = BDRV_SECTOR_SIZE * _ := h1
    _ ≤ BDRV_SECTOR_SIZE * min (env.getLength.toNat / BDRV_SECTOR_SIZE)
        (BACKUP_SECTORS_PER_CLUSTER * numClusters (env.getLength.toNat / BDRV_SECTOR_SIZE)) :=
      Nat.mul_le_mul_left _ hsum
    _ = BDRV_SECTOR_SIZE * (env.getLength.toNat / BDRV_SECTOR_SIZE) := by
      rw [min_eq_left h128]
    _ ≤ env.getLength.toNat := hT

theorem do_cow_preserves_inv (env : Env) (st : Mainline.JobState) (s nb : Nat)
    (h : s + nb ≤ env.getLength.toNat / BDRV_SECTOR_SIZE)
    (hinv : Mainline.offsetInv env st) :
    Mainline.offsetInv env (Mainline.backup_do_cow env st s nb).st := by
  obtain ⟨h1, h2⟩ := hinv
  constructor
  · have hd := (do_cow_delta env st s nb h).1
    have hmono : ∀ i, st.bitmap i = true →
        (Mainline.backup_do_cow env st s nb).st.bitmap i = true :=
      fun i hi => do_cow_bit_mono env st s nb i hi
    have hsplit := sum_if_mono_split (numClusters (env.getLength.toNat / BDRV_SECTOR_SIZE))
      (nSec (env.getLength.toNat / BDRV_SECTOR_SIZE)) st.bitmap
      (Mainline.backup_do_cow env st s nb).st.bitmap hmono
    rw [hd, h1, hsplit, Nat.mul_add]
    rfl
  · intro c hc
    by_contra hb
    rw [Bool.not_eq_false] at hb
    by_cases hsb : st.bitmap c = true
    · rw [h2 c hc] at hsb; cases hsb
    · rw [Bool.not_eq_true] at hsb
      obtain ⟨_, hlt, _⟩ := do_cow_new_bit env st s nb c hsb hb
      have := endc_le_numClusters h
      omega

theorem offsetInv_sleepSt (env : Env) (st : Mainline.JobState)
    (h : Mainline.offsetInv env st) : Mainline.offsetInv env (sleepSt env st) := by
  unfold sleepSt
  split
  · exact h
  · exact h

theorem sweepLoop_preserves_inv (env : Env) :
    ∀ (fuel : Nat) (st : Mainline.JobState) (ret : Int) (start iter : Nat),
      Mainline.offsetInv env st →
      Mainline.offsetInv env
        ((Mainline.sweepLoop env (numClusters (env.getLength.toNat / BDRV_SECTOR_SIZE))
          st ret start iter fuel).st) := by
  intro fuel
  induction fuel with
  | zero => intro st ret start iter h; exact h
  | succ fuel ih =>
    intro st ret start iter h
    by_cases hlt : start < numClusters (env.getLength.toNat / BDRV_SECTOR_SIZE)
    · by_cases hc1 : env.cancel1 iter = true
      · rw [swM_cancel1 env _ st ret start iter fuel hlt hc1]; exact h
      · rw [Bool.not_eq_true] at hc1
        by_cases hc2 : env.cancel2 iter = true
        · rw [swM_cancel2 env _ st ret start iter fuel hlt hc1 hc2]
          exact offsetInv_sleepSt env st h
        · rw [Bool.not_eq_true] at hc2
          have hvalid : start * BACKUP_SECTORS_PER_CLUSTER + 1 ≤
              env.getLength.toNat / BDRV_SECTOR_SIZE := by
            have := (lt_numClusters_iff (env.getLength.toNat / BDRV_SECTOR_SIZE) start).mp hlt
            omega
          have hinv2 : Mainline.offsetInv env
              (Mainline.backup_do_cow env (sleepSt env st)
                (start * BACKUP_SECTORS_PER_CLUSTER) 1).st :=
            do_cow_preserves_inv env (sleepSt env st) _ 1 hvalid (offsetInv_sleepSt env st h)
          by_cases hr : (Mainline.backup_do_cow env (sleepSt env st)
              (start * BACKUP_SECTORS_PER_CLUSTER) 1).ret < 0
          · by_cases ha : env.errAction ((Mainline.backup_do_cow env (sleepSt env st)
                (start * BACKUP_SECTORS_PER_CLUSTER) 1).err.getD true)
                (-(Mainline.backup_do_cow env (sleepSt env st)
                  (start * BACKUP_SECTORS_PER_CLUSTER) 1).ret) = .report
            · rw [swM_err_report env _ st ret start iter fuel hlt hc1 hc2 hr ha]
              exact hinv2
            · rw [swM_err_retry env _ st ret start iter fuel hlt hc1 hc2 hr ha]
              exact ih _ _ _ _ hinv2
          · rw [swM_ok env _ st ret start iter fuel hlt hc1 hc2 hr]
            exact ih _ _ _ _ hinv2
    · rw [swM_done env _ st ret start iter fuel hlt]; exact h

theorem cowLoop_offset_mono (env : Env) (T : Nat) :
    ∀ (fuel cur : Nat) (st : Mainline.JobState) (ret : Int),
      st.offset ≤ (Mainline.cowLoop env T st ret cur fuel).st.offset := by
  intro fuel
  induction fuel with
  | zero => intro cur st ret; exact le_refl _
  | succ fuel ih =>
    intro cur st ret
    by_cases hb : st.bitmap cur = true
    · rw [cowLoop_skip env T st ret cur fuel hb]; exact ih _ st ret
    · rw [Bool.not_eq_true] at hb
      by_cases hr : env.readRet cur < 0
      · rw [cowLoop_read_fail env T st ret cur fuel hb hr]
      · by_cases hw : stepWr env T cur < 0
        · rw [cowLoop_write_fail env T st ret cur fuel hb hr hw]
        · rw [cowLoop_success env T st ret cur fuel hb hr hw]
          refine le_trans ?_ (ih (cur + 1) (stepSt env T cur st) (stepWr env T cur))
          simp [stepSt]

theorem do_cow_offset_mono (env : Env) (st : Mainline.JobState) (s nb : Nat) :
    st.offset ≤ (Mainline.backup_do_cow env st s nb).st.offset := by
  by_cases hg : env.getLength < 0
  · simp [Mainline.backup_do_cow, hg]
  · simp only [Mainline.backup_do_cow, hg, if_false]
    exact cowLoop_offset_mono env _ _ _ st 0

theorem nSec_bound {T c : Nat} (h : c * BACKUP_SECTORS_PER_CLUSTER < T) :
    c * BACKUP_SECTORS_PER_CLUSTER + nSec T c ≤ T := by
  rw [nSec_eq h]
  rw [SPC_eq] at *
  omega

theorem evOk_read {T cur : Nat} (h : cur * BACKUP_SECTORS_PER_CLUSTER < T) :
    Mainline.evOk T (.read (cur * BACKUP_SECTORS_PER_CLUSTER) (nSec T cur)) := by
  exact ⟨cur, rfl, h, nSec_eq h, nSec_bound h⟩

theorem evOk_stepWev (env : Env) {T cur : Nat} (h : cur * BACKUP_SECTORS_PER_CLUSTER < T) :
    Mainline.evOk T (stepWev env T cur) := by
  unfold stepWev
  split
  · exact ⟨cur, rfl, h, nSec_eq h, nSec_bound h⟩
  · exact ⟨cur, rfl, h, nSec_eq h, nSec_bound h⟩

theorem cowLoop_trace_ok (env : Env) (T : Nat) :
    ∀ (fuel cur : Nat) (st : Mainline.JobState) (ret : Int),
      cur + fuel ≤ numClusters T →
      ∀ e ∈ (Mainline.cowLoop env T st ret cur fuel).trace, Mainline.evOk T e := by
  intro fuel
  induction fuel with
  | zero => intro cur st ret _ e he; rw [cowLoop_zero] at he; cases he
  | succ fuel ih =>
    intro cur st ret hK e he
    have hlt : cur * BACKUP_SECTORS_PER_CLUSTER < T :=
      (lt_numClusters_iff T cur).mp (by omega)
    by_cases hb : st.bitmap cur = true
    · rw [cowLoop_skip env T st ret cur fuel hb] at he
      exact ih (cur + 1) st ret (by omega) e he
    · rw [Bool.not_eq_true] at hb
      by_cases hr : env.readRet cur < 0
      · rw [cowLoop_read_fail env T st ret cur fuel hb hr] at he
        simp only [List.mem_cons, List.not_mem_nil, or_false] at he
        subst he
        exact evOk_read hlt
      · by_cases hw : stepWr env T cur < 0
        · rw [cowLoop_write_fail env T st ret cur fuel hb hr hw] at he
          simp only [List.mem_cons, List.not_mem_nil, or_false] at he
          rcases he with he | he <;> subst he
          · exact evOk_read hlt
          · exact evOk_stepWev env hlt
        · rw [cowLoop_success env T st ret cur fuel hb hr hw] at he
          simp only [List.mem_cons] at he
          rcases he with he | he | he
          · subst he; exact evOk_read hlt
          · subst he; exact evOk_stepWev env hlt
          · exact ih (cur + 1) (stepSt env T cur st) (stepWr env T cur) (by omega) e he

theorem cowLoop_no_policy (env : Env) (T : Nat) :
    ∀ (fuel cur : Nat) (st : Mainline.JobState) (ret : Int),
      (Mainline.cowLoop env T st ret cur fuel).trace.countP isPolicyConsult = 0 := by
  intro fuel
  induction fuel with
  | zero => intro cur st ret; rw [cowLoop_zero]; rfl
  | succ fuel ih =>
    intro cur st ret
    by_cases hb : st.bitmap cur = true
    · rw [cowLoop_skip env T st ret cur fuel hb]; exact ih (cur + 1) st ret
    · rw [Bool.not_eq_true] at hb
      by_cases hr : env.readRet cur < 0
      · rw [cowLoop_read_fail env T st ret cur fuel hb hr]; rfl
      · by_cases hw : stepWr env T cur < 0
        · rw [cowLoop_write_fail env T st ret cur fuel hb hr hw]
          unfold stepWev
          split <;> rfl
        · rw [cowLoop_success env T st ret cur fuel hb hr hw]
          have := ih (cur + 1) (stepSt env T cur st) (stepWr env T cur)
          simp only [List.countP_cons]
          unfold stepWev
          split <;> simp [isPolicyConsult, this]

theorem do_cow_no_policy (env : Env) (st : Mainline.JobState) (s nb : Nat) :
    (Mainline.backup_do_cow env st s nb).trace.countP isPolicyConsult = 0 := by
  by_cases hg : env.getLength < 0
  · simp [Mainline.backup_do_cow, hg]
  · simp only [Mainline.backup_do_cow, hg, if_false]
    exact cowLoop_no_policy env _ _ _ st 0

theorem isWriteZeroFor_target {c : Nat} {e : IOEvent} (h : isWriteZeroFor c e = true) :
    isTargetOpFor c e = true := by
  cases e <;> simpa [isWriteZeroFor, isTargetOpFor] using h

theorem isWriteFor_target {c : Nat} {e : IOEvent} (h : isWriteFor c e = true) :
    isTargetOpFor c e = true := by
  cases e <;> simpa [isWriteFor, isTargetOpFor] using h

theorem sector_ne {c cur : Nat} (h : c ≠ cur) :
    cur * BACKUP_SECTORS_PER_CLUSTER ≠ c * BACKUP_SECTORS_PER_CLUSTER := by
  intro hh
  exact h (Nat.eq_of_mul_eq_mul_right (by norm_num [SPC_eq]) hh).symm

theorem isTargetOpFor_stepWev_ne (env : Env) (T : Nat) {c cur : Nat} (h : c ≠ cur) :
    isTargetOpFor c (stepWev env T cur) = false := by
  unfold stepWev
  split <;> simp [isTargetOpFor, sector_ne h]

/-- A cluster whose bit is already set on entry receives no target
operation during the loop. -/
theorem cowLoop_set_no_target (env : Env) (T : Nat) :
    ∀ (fuel cur : Nat) (st : Mainline.JobState) (ret : Int) (c : Nat),
      st.bitmap c = true →
      ∀ e ∈ (Mainline.cowLoop env T st ret cur fuel).trace, isTargetOpFor c e = false := by
  intro fuel
  induction fuel with
  | zero => intro cur st ret c _ e he; rw [cowLoop_zero] at he; cases he
  | succ fuel ih =>
    intro cur st ret c hset e he
    by_cases hb : st.bitmap cur = true
    · rw [cowLoop_skip env T st ret cur fuel hb] at he
      exact ih (cur + 1) st ret c hset e he
    · rw [Bool.not_eq_true] at hb
      have hcc : c ≠ cur := fun hh => by rw [hh, hb] at hset; cases hset
      by_cases hr : env.readRet cur < 0
      · rw [cowLoop_read_fail env T st ret cur fuel hb hr] at he
        simp only [List.mem_cons, List.not_mem_nil, or_false] at he
        subst he; rfl
      · by_cases hw : stepWr env T cur < 0
        · rw [cowLoop_write_fail env T st ret cur fuel hb hr hw] at he
          simp only [List.mem_cons, List.not_mem_nil, or_false] at he
          rcases he with he | he <;> subst he
          · rfl
          · exact isTargetOpFor_stepWev_ne env T hcc
        · rw [cowLoop_success env T st ret cur fuel hb hr hw] at he
          simp only [List.mem_cons] at he
          rcases he with he | he | he
          · subst he; rfl
          · subst he; exact isTargetOpFor_stepWev_ne env T hcc
          · refine ih (cur + 1) (stepSt env T cur st) (stepWr env T cur) c ?_ e he
            simp [stepSt, Mainline.setBit, hset]

/-- The copied cluster receives exactly one target operation, of the kind
selected by the zero check. -/
theorem cowLoop_target_count (env : Env) (T : Nat) :
    ∀ (fuel cur : Nat) (st : Mainline.JobState) (ret : Int) (c : Nat),
      st.bitmap c = false →
      (Mainline.cowLoop env T st ret cur fuel).st.bitmap c = true →
      (Mainline.cowLoop env T st ret cur fuel).trace.countP (isWriteZeroFor c) =
          (if clusterIsZero env c (nSec T c) then 1 else 0) ∧
        (Mainline.cowLoop env T st ret cur fuel).trace.countP (isWriteFor c) =
          (if clusterIsZero env c (nSec T c) then 0 else 1) := by
  intro fuel
  induction fuel with
  | zero => intro cur st ret c h0 h1; rw [cowLoop_zero] at h1; rw [h0] at h1; cases h1
  | succ fuel ih =>
    intro cur st ret c h0 h1
    by_cases hb : st.bitmap cur = true
    · rw [cowLoop_skip env T st ret cur fuel hb] at h1 ⊢
      exact ih (cur + 1) st ret c h0 h1
    · rw [Bool.not_eq_true] at hb
      by_cases hr : env.readRet cur < 0
      · rw [cowLoop_read_fail env T st ret cur fuel hb hr] at h1
        rw [h0] at h1; cases h1
      · by_cases hw : stepWr env T cur < 0
        · rw [cowLoop_write_fail env T st ret cur fuel hb hr hw] at h1
          rw [h0] at h1; cases h1
        · rw [cowLoop_success env T st ret cur fuel hb hr hw] at h1 ⊢
          by_cases hcc : c = cur
          · subst hcc
            have hrest : ∀ e ∈ (Mainline.cowLoop env T (stepSt env T c st) (stepWr env T c)
                (c + 1) fuel).trace, isTargetOpFor c e = false :=
              cowLoop_set_no_target env T fuel (c + 1) _ _ c (by simp [stepSt, Mainline.setBit])
            have hz1 : (Mainline.cowLoop env T (stepSt env T c st) (stepWr env T c)
                (c + 1) fuel).trace.countP (isWriteZeroFor c) = 0 := by
              refine List.countP_eq_zero.mpr fun a ha hx => ?_
              have h' := isWriteZeroFor_target hx
              rw [hrest a ha] at h'
              cases h'
            have hz2 : (Mainline.cowLoop env T (stepSt env T c st) (stepWr env T c)
                (c + 1) fuel).trace.countP (isWriteFor c) = 0 := by
              refine List.countP_eq_zero.mpr fun a ha hx => ?_
              have h' := isWriteFor_target hx
              rw [hrest a ha] at h'
              cases h'
            unfold stepWev
            by_cases hz : clusterIsZero env c (nSec T c) = true
            · simp [List.countP_cons, hz, hz1, hz2, isWriteZeroFor, isWriteFor]
            · rw [Bool.not_eq_true] at hz
              simp [List.countP_cons, hz, hz1, hz2, isWriteZeroFor, isWriteFor]
          · have h0' : (stepSt env T cur st).bitmap c = false := by
              simpa [stepSt, Mainline.setBit, hcc] using h0
            obtain ⟨ha1, ha2⟩ := ih (cur + 1) (stepSt env T cur st) (stepWr env T cur) c h0' h1
            have hwev := isTargetOpFor_stepWev_ne env T hcc
            have hwz : isWriteZeroFor c (stepWev env T cur) = false := by
              by_contra hx
              rw [Bool.not_eq_false] at hx
              rw [isWriteZeroFor_target hx] at hwev; cases hwev
            have hwr : isWriteFor c (stepWev env T cur) = false := by
              by_contra hx
              rw [Bool.not_eq_false] at hx
              rw [isWriteFor_target hx] at hwev; cases hwev
            have hread_z : isWriteZeroFor c
              (IOEvent.read (cur * BACKUP_SECTORS_PER_CLUSTER) (nSec T cur)) = false := rfl
            have hread_w : isWriteFor c
              (IOEvent.read (cur * BACKUP_SECTORS_PER_CLUSTER) (nSec T cur)) = false := rfl
            constructor
            · simp [List.countP_cons, hwz, hread_z, ha1]
            · simp [List.countP_cons, hwr, hread_w, ha2]

/-- Error classification of the mainline loop: either no error was
recorded and the result is non-negative, or `error_is_read = true` was
recorded together with a failing source read whose code is returned, or
`error_is_read = false` was recorded together with a failing target
operation whose code is returned. -/
theorem cowLoop_err_spec (env : Env) (T : Nat) :
    ∀ (fuel cur : Nat) (st : Mainline.JobState) (ret : Int), 0 ≤ ret →
      ((Mainline.cowLoop env T st ret cur fuel).err = none ∧
        0 ≤ (Mainline.cowLoop env T st ret cur fuel).ret) ∨
      ((Mainline.cowLoop env T st ret cur fuel).err = some true ∧
        (Mainline.cowLoop env T st ret cur fuel).ret < 0 ∧
        ∃ c, (Mainline.cowLoop env T st ret cur fuel).ret = env.readRet c ∧
          env.readRet c < 0 ∧
          IOEvent.read (c * BACKUP_SECTORS_PER_CLUSTER) (nSec T c) ∈
            (Mainline.cowLoop env T st ret cur fuel).trace) ∨
      ((Mainline.cowLoop env T st ret cur fuel).err = some false ∧
        (Mainline.cowLoop env T st ret cur fuel).ret < 0 ∧
        ∃ c, (Mainline.cowLoop env T st ret cur fuel).ret = stepWr env T c ∧
          stepWr env T c < 0 ∧
          stepWev env T c ∈ (Mainline.cowLoop env T st ret cur fuel).trace) := by
  intro fuel
  induction fuel with
  | zero => intro cur st ret h0; exact Or.inl ⟨rfl, h0⟩
  | succ fuel ih =>
    intro cur st ret h0
    by_cases hb : st.bitmap cur = true
    · rw [cowLoop_skip env T st ret cur fuel hb]
      exact ih (cur + 1) st ret h0
    · rw [Bool.not_eq_true] at hb
      by_cases hr : env.readRet cur < 0
      · rw [cowLoop_read_fail env T st ret cur fuel hb hr]
        exact Or.inr (Or.inl ⟨rfl, hr, cur, rfl, hr, List.mem_cons_self _ _⟩)
      · by_cases hw : stepWr env T cur < 0
        · rw [cowLoop_write_fail env T st ret cur fuel hb hr hw]
          exact Or.inr (Or.inr ⟨rfl, hw, cur, rfl, hw,
            List.mem_cons_of_mem _ (List.mem_cons_self _ _)⟩)
        · rw [cowLoop_success env T st ret cur fuel hb hr hw]
          rcases ih (cur + 1) (stepSt env T cur st) (stepWr env T cur)
              (Int.not_lt.mp hw) with h | h | h
          · exact Or.inl h
          · obtain ⟨he, hl, c, hc1, hc2, hc3⟩ := h
            exact Or.inr (Or.inl ⟨he, hl, c, hc1, hc2,
              List.mem_cons_of_mem _ (List.mem_cons_of_mem _ hc3)⟩)
          · obtain ⟨he, hl, c, hc1, hc2, hc3⟩ := h
            exact Or.inr (Or.inr ⟨he, hl, c, hc1, hc2,
              List.mem_cons_of_mem _ (List.mem_cons_of_mem _ hc3)⟩)

/-- A successful loop run (no recorded error) sets every bit in the
processed window. -/
theorem cowLoop_success_bits (env : Env) (T : Nat) :
    ∀ (fuel cur : Nat) (st : Mainline.JobState) (ret : Int),
      (Mainline.cowLoop env T st ret cur fuel).err = none →
      ∀ c, cur ≤ c → c < cur + fuel →
        (Mainline.cowLoop env T st ret cur fuel).st.bitmap c = true := by
  intro fuel
  induction fuel with
  | zero => intro cur st ret _ c hc1 hc2; omega
  | succ fuel ih =>
    intro cur st ret herr c hc1 hc2
    by_cases hb : st.bitmap cur = true
    · rw [cowLoop_skip env T st ret cur fuel hb] at herr ⊢
      by_cases hcc : c = cur
      · subst hcc
        exact cowLoop_bit_mono env T fuel (c + 1) st ret c hb
      · exact ih (cur + 1) st ret herr c (by omega) (by omega)
    · rw [Bool.not_eq_true] at hb
      by_cases hr : env.readRet cur < 0
      · rw [cowLoop_read_fail env T st ret cur fuel hb hr] at herr
        cases herr
      · by_cases hw : stepWr env T cur < 0
        · rw [cowLoop_write_fail env T st ret cur fuel hb hr hw] at herr
          cases herr
        · rw [cowLoop_success env T st ret cur fuel hb hr hw] at herr ⊢
          by_cases hcc : c = cur
          · subst hcc
            exact cowLoop_bit_mono env T fuel (c + 1) _ _ c (by simp [stepSt, Mainline.setBit])
          · exact ih (cur + 1) (stepSt env T cur st) (stepWr env T cur) herr c
              (by omega) (by omega)

/-- When every bit in the window is already set, the loop is a no-op. -/
theorem cowLoop_all_set_noop (env : Env) (T : Nat) :
    ∀ (fuel cur : Nat) (st : Mainline.JobState) (ret : Int),
      (∀ c, cur ≤ c → c < cur + fuel → st.bitmap c = true) →
      Mainline.cowLoop env T st ret cur fuel = ⟨st, ret, none, []⟩ := by
  intro fuel
  induction fuel with
  | zero => intro cur st ret _; rfl
  | succ fuel ih =>
    intro cur st ret h
    rw [cowLoop_skip env T st ret cur fuel (h cur (le_refl _) (by omega))]
    exact ih (cur + 1) st ret fun c hc1 hc2 => h c (by omega) (by omega)

/-- A second `backup_do_cow` for a range whose first invocation succeeded
performs no work: same state, success, empty trace. -/
theorem do_cow_idempotent (env : Env) (st : Mainline.JobState) (s nb : Nat)
    (h : (Mainline.backup_do_cow env st s nb).err = none) :
    Mainline.backup_do_cow env (Mainline.backup_do_cow env st s nb).st s nb =
      ⟨(Mainline.backup_do_cow env st s nb).st, 0, none, []⟩ := by
  by_cases hg : env.getLength < 0
  · rw [Mainline.backup_do_cow] at h
    simp [hg] at h
  · rw [Mainline.backup_do_cow] at h
    simp only [hg, if_false] at h
    conv_lhs => rw [Mainline.backup_do_cow]
    simp only [hg, if_false]
    rw [Mainline.backup_do_cow]
    simp only [hg, if_false]
    exact cowLoop_all_set_noop env _ _ _ _ 0
      (cowLoop_success_bits env _ _ _ st 0 h)

theorem runCalls_inv (env : Env) :
    ∀ (calls : List (Nat × Nat)) (st : Mainline.JobState),
      Mainline.offsetInv env st →
      (∀ p ∈ calls, p.1 + p.2 ≤ env.getLength.toNat / BDRV_SECTOR_SIZE) →
      Mainline.offsetInv env (Mainline.runCalls env st calls) := by
  intro calls
  induction calls with
  | nil => intro st h _; exact h
  | cons p ps ih =>
    intro st h hv
    exact ih _ (do_cow_preserves_inv env st p.1 p.2 (hv p (List.mem_cons_self _ _)) h)
      fun q hq => hv q (List.mem_cons_of_mem _ hq)

theorem swV_cancel1 (env : Env) (endc : Nat) (st : Variant.VJobState) (ret : Int)
    (start iter fuel : Nat) (h : start < endc) (h1 : env.cancel1 iter = true) :
    Variant.sweepLoop env endc st ret start iter (fuel + 1) =
      ⟨st, .cancelled (-1), [], []⟩ := by
  simp [Variant.sweepLoop, h, h1]

theorem swV_cancel2 (env : Env) (endc : Nat) (st : Variant.VJobState) (ret : Int)
    (start iter fuel : Nat) (h : start < endc) (h1 : env.cancel1 iter = false)
    (h2 : env.cancel2 iter = true) :
    Variant.sweepLoop env endc st ret start iter (fuel + 1) =
      ⟨sleepStV env st, .cancelled (-1), [], sleepTrV env st⟩ := by
  by_cases hsp : env.speed = 0 <;>
    simp [Variant.sweepLoop, h, h1, h2, sleepStV, sleepTrV, hsp]

theorem do_cow_err_spec (env : Env) (st : Mainline.JobState) (s nb : Nat)
    (hg : ¬env.getLength < 0) :
    ((Mainline.backup_do_cow env st s nb).err = none ∧
      0 ≤ (Mainline.backup_do_cow env st s nb).ret) ∨
    ((Mainline.backup_do_cow env st s nb).err = some true ∧
      (Mainline.backup_do_cow env st s nb).ret < 0 ∧
      ∃ c, (Mainline.backup_do_cow env st s nb).ret = env.readRet c ∧ env.readRet c < 0 ∧
        IOEvent.read (c * BACKUP_SECTORS_PER_CLUSTER)
            (nSec (env.getLength.toNat / BDRV_SECTOR_SIZE) c) ∈
          (Mainline.backup_do_cow env st s nb).trace) ∨
    ((Mainline.backup_do_cow env st s nb).err = some false ∧
      (Mainline.backup_do_cow env st s nb).ret < 0 ∧
      ∃ c, (Mainline.backup_do_cow env st s nb).ret =
          stepWr env (env.getLength.toNat / BDRV_SECTOR_SIZE) c ∧
        stepWr env (env.getLength.toNat / BDRV_SECTOR_SIZE) c < 0 ∧
        stepWev env (env.getLength.toNat / BDRV_SECTOR_SIZE) c ∈
          (Mainline.backup_do_cow env st s nb).trace) := by
  simp only [Mainline.backup_do_cow, hg, if_false]
  exact cowLoop_err_spec env _ _ _ st 0 (le_refl 0)

/-- C1 (amended, mainline part): in src/block/backup.c the bit for a
cluster is never cleared, and a bit that becomes set during a
`backup_do_cow` invocation was set only with a successful source read and
a successful target write (or write-zeroes), which was issued. -/
theorem mainline_bitmap_set_only_after_write_success (env : Env) (st : Mainline.JobState)
    (s nb c : Nat) :
    (st.bitmap c = true → (Mainline.backup_do_cow env st s nb).st.bitmap c = true) ∧
    (st.bitmap c = false → (Mainline.backup_do_cow env st s nb).st.bitmap c = true →
      0 ≤ env.readRet c ∧
      0 ≤ stepWr env (env.getLength.toNat / BDRV_SECTOR_SIZE) c ∧
      stepWev env (env.getLength.toNat / BDRV_SECTOR_SIZE) c ∈
        (Mainline.backup_do_cow env st s nb).trace) :=
  ⟨fun h => do_cow_bit_mono env st s nb c h,
   fun h0 h1 => (do_cow_new_bit env st s nb c h0 h1).2.2⟩

theorem mainline_bitmap_set_only_after_write_success_witness :
    0 ≤ envW.readRet 0 ∧
      0 ≤ stepWr envW (envW.getLength.toNat / BDRV_SECTOR_SIZE) 0 ∧
      stepWev envW (envW.getLength.toNat / BDRV_SECTOR_SIZE) 0 ∈
        (Mainline.backup_do_cow envW Mainline.initJobState 0 200).trace :=
  (mainline_bitmap_set_only_after_write_success envW Mainline.initJobState 0 200 0).2
    rfl (by decide)

/-- C1 counterexample: the variant engine (src/backup.c) sets the
progress bit for cluster 0 immediately, before the source read, so the
invocation that fails its source read leaves the bit at 1, not 0. -/
theorem variant_bitmap_set_despite_read_failure :
    Variant.backup_get_bitmap (Variant.backup_start_state envReadErr).bitmap 0 = false ∧
    envReadErr.readRet 0 < 0 ∧
    (Variant.backup_do_cow envReadErr (Variant.backup_start_state envReadErr) 0 1).ret = -5 ∧
    Variant.backup_get_bitmap
      (Variant.backup_do_cow envReadErr
        (Variant.backup_start_state envReadErr) 0 1).st.bitmap 0 = true := by
  decide

/-- C2 (amended, mainline part): every I/O event of a mainline
`backup_do_cow` whose range lies within the device addresses a
cluster-aligned range of exactly `min(128, total_sectors - c*128)`
sectors and never touches sectors at or past the device end. -/
theorem mainline_cow_io_within_device (env : Env) (st : Mainline.JobState) (s nb : Nat)
    (h : s + nb ≤ env.getLength.toNat / BDRV_SECTOR_SIZE) :
    ∀ e ∈ (Mainline.backup_do_cow env st s nb).trace,
      Mainline.evOk (env.getLength.toNat / BDRV_SECTOR_SIZE) e := by
  by_cases hg : env.getLength < 0
  · simp [Mainline.backup_do_cow, hg]
  · simp only [Mainline.backup_do_cow, hg, if_false]
    refine cowLoop_trace_ok env _ _ _ st 0 ?_
    have h1 := cur_le_endc s nb
    have h2 := endc_le_numClusters h
    omega

theorem mainline_cow_io_within_device_witness :
    (0 + 129 ≤ envW.getLength.toNat / BDRV_SECTOR_SIZE) ∧
      ∀ e ∈ (Mainline.backup_do_cow envW Mainline.initJobState 0 129).trace,
        Mainline.evOk (envW.getLength.toNat / BDRV_SECTOR_SIZE) e :=
  ⟨by decide, mainline_cow_io_within_device envW Mainline.initJobState 0 129 (by decide)⟩

/-- C2 counterexample: on a one-sector device the variant engine reads
and writes the full 128-sector cluster, not `n = min(128, 1 - 0) = 1`, so
its I/O extends past the device end. -/
theorem variant_full_cluster_io_past_end :
    envVShort.getLength = 512 ∧
    (Variant.backup_do_cow envVShort (Variant.backup_start_state envVShort) 0 1).trace =
      [.read 0 128, .write 0 128] ∧
    (128 : Nat) ≠ min 128 (512 / 512 - 0 * 128) ∧
    ¬(0 + 128 ≤ 512 / 512) := by
  decide

/-- C3 (amended, mainline part): a cluster copied by a mainline
`backup_do_cow` receives exactly one target operation: one write-zeroes
and no plain write when the read-back buffer is all zero, one plain write
and no write-zeroes otherwise. -/
theorem mainline_zero_detection_target_op (env : Env) (st : Mainline.JobState)
    (s nb c : Nat) (h0 : st.bitmap c = false)
    (h1 : (Mainline.backup_do_cow env st s nb).st.bitmap c = true) :
    (Mainline.backup_do_cow env st s nb).trace.countP (isWriteZeroFor c) =
        (if clusterIsZero env c (nSec (env.getLength.toNat / BDRV_SECTOR_SIZE) c)
          then 1 else 0) ∧
      (Mainline.backup_do_cow env st s nb).trace.countP (isWriteFor c) =
        (if clusterIsZero env c (nSec (env.getLength.toNat / BDRV_SECTOR_SIZE) c)
          then 0 else 1) := by
  by_cases hg : env.getLength < 0
  · rw [Mainline.backup_do_cow] at h1
    simp only [hg, if_true] at h1
    rw [h0] at h1; cases h1
  · rw [Mainline.backup_do_cow] at h1 ⊢
    simp only [hg, if_false] at h1 ⊢
    exact cowLoop_target_count env _ _ _ st 0 c h0 h1

theorem mainline_zero_detection_target_op_witness :
    (Mainline.backup_do_cow envW Mainline.initJobState 0 129).trace.countP
        (isWriteZeroFor 1) =
      (if clusterIsZero envW 1 (nSec (envW.getLength.toNat / BDRV_SECTOR_SIZE) 1)
        then 1 else 0) ∧
    (Mainline.backup_do_cow envW Mainline.initJobState 0 129).trace.countP (isWriteFor 1) =
      (if clusterIsZero envW 1 (nSec (envW.getLength.toNat / BDRV_SECTOR_SIZE) 1)
        then 0 else 1) :=
  mainline_zero_detection_target_op envW Mainline.initJobState 0 129 1 rfl (by decide)

/-- C3 counterexample: the variant engine issues no target operation at
all for a copied all-zero cluster (it skips the write instead of issuing
a write-zeroes), so it is false that exactly one of the two target
operations is issued per copied cluster. -/
theorem variant_zero_cluster_no_target_op :
    (Variant.backup_do_cow envVZero (Variant.backup_start_state envVZero) 0 1).ret = 0 ∧
    Variant.backup_get_bitmap
      (Variant.backup_do_cow envVZero
        (Variant.backup_start_state envVZero) 0 1).st.bitmap 0 = true ∧
    (Variant.backup_do_cow envVZero (Variant.backup_start_state envVZero) 0 1).trace.countP
      (isTargetOpFor 0) = 0 := by
  decide

/-- C4: both pre-write interceptors forward the tracked request's exact
range to `backup_do_cow` and return its status unmodified (so a failure
propagates to the guest write), and the interceptor path never consults
the error-action policy. -/
theorem before_write_returns_cow_status :
    (∀ (env : Env) (st : Mainline.JobState) (req : Mainline.BdrvTrackedRequest),
      (Mainline.backup_before_write_notify env st req).ret =
          (Mainline.backup_do_cow env st req.sector_num req.nb_sectors).ret ∧
        (Mainline.backup_before_write_notify env st req).st =
          (Mainline.backup_do_cow env st req.sector_num req.nb_sectors).st ∧
        (Mainline.backup_before_write_notify env st req).trace.countP isPolicyConsult = 0) ∧
    (∀ (env : Env) (st : Variant.VJobState) (s nb : Nat) (q : Variant.QEMUIOVector),
      Variant.backup_before_write env st s nb q = Variant.backup_do_cow env st s nb) :=
  ⟨fun env st req => ⟨rfl, rfl, do_cow_no_policy env st req.sector_num req.nb_sectors⟩,
   fun _ _ _ _ _ => rfl⟩

/-- C5: a cancellation observed at either of the sweep's two per-iteration
checks (in either engine) ends the loop at once - no `backup_do_cow`
invocation is recorded from that point - and the completion is the
distinct cancelled result, which no error completion equals. -/
theorem sweep_cancellation_halts (env : Env) (endc : Nat) (st : Mainline.JobState)
    (vst : Variant.VJobState) (ret vret : Int) (start iter fuel : Nat)
    (h : start < endc) :
    (env.cancel1 iter = true →
      Mainline.sweepLoop env endc st ret start iter (fuel + 1) =
        ⟨st, .cancelled ret, [], []⟩) ∧
    (env.cancel1 iter = false → env.cancel2 iter = true →
      Mainline.sweepLoop env endc st ret start iter (fuel + 1) =
        ⟨sleepSt env st, .cancelled ret, [], sleepTr env st⟩) ∧
    (env.cancel1 iter = true →
      Variant.sweepLoop env endc vst vret start iter (fuel + 1) =
        ⟨vst, .cancelled (-1), [], []⟩) ∧
    (env.cancel1 iter = false → env.cancel2 iter = true →
      Variant.sweepLoop env endc vst vret start iter (fuel + 1) =
        ⟨sleepStV env vst, .cancelled (-1), [], sleepTrV env vst⟩) ∧
    (∀ q r : Int, Mainline.Completion.cancelled q ≠ Mainline.Completion.completed r) :=
  ⟨fun h1 => swM_cancel1 env endc st ret start iter fuel h h1,
   fun h1 h2 => swM_cancel2 env endc st ret start iter fuel h h1 h2,
   fun h1 => swV_cancel1 env endc vst vret start iter fuel h h1,
   fun h1 h2 => swV_cancel2 env endc vst vret start iter fuel h h1 h2,
   fun _ _ => by simp⟩

theorem sweep_cancellation_halts_witness :
    Mainline.sweepLoop envCancelW 128 Mainline.initJobState 0 0 0 (2 + 1) =
      ⟨Mainline.initJobState, .cancelled 0, [], []⟩ :=
  (sweep_cancellation_halts envCancelW 128 Mainline.initJobState
    (Variant.backup_start_state envCancelW) 0 0 0 0 2 (by decide)).1 rfl

/-- C6 (amended, mainline part): when a sweep-initiated `backup_do_cow`
fails, the mainline sweep consults the error-action policy (an
`errorAction` consultation is in the trace); a `report` action terminates
the loop with that error after this single invocation, and any other
action re-invokes `backup_do_cow` for the same cluster `start` on the
next iteration. -/
theorem mainline_sweep_consults_error_policy (env : Env) (endc : Nat)
    (st : Mainline.JobState) (ret : Int) (start iter fuel : Nat)
    (h : start < endc) (h1 : env.cancel1 iter = false) (h2 : env.cancel2 iter = false)
    (hr : (Mainline.backup_do_cow env (sleepSt env st)
      (start * BACKUP_SECTORS_PER_CLUSTER) 1).ret < 0) :
    (env.errAction ((Mainline.backup_do_cow env (sleepSt env st)
          (start * BACKUP_SECTORS_PER_CLUSTER) 1).err.getD true)
        (-(Mainline.backup_do_cow env (sleepSt env st)
          (start * BACKUP_SECTORS_PER_CLUSTER) 1).ret) = .report →
      (Mainline.sweepLoop env endc st ret start iter (fuel + 1)).outcome =
          .completed (Mainline.backup_do_cow env (sleepSt env st)
            (start * BACKUP_SECTORS_PER_CLUSTER) 1).ret ∧
        (Mainline.sweepLoop env endc st ret start iter (fuel + 1)).calls = [start] ∧
        IOEvent.errorAction ((Mainline.backup_do_cow env (sleepSt env st)
            (start * BACKUP_SECTORS_PER_CLUSTER) 1).err.getD true) ∈
          (Mainline.sweepLoop env endc st ret start iter (fuel + 1)).trace) ∧
    (env.errAction ((Mainline.backup_do_cow env (sleepSt env st)
          (start * BACKUP_SECTORS_PER_CLUSTER) 1).err.getD true)
        (-(Mainline.backup_do_cow env (sleepSt env st)
          (start * BACKUP_SECTORS_PER_CLUSTER) 1).ret) ≠ .report →
      (Mainline.sweepLoop env endc st ret start iter (fuel + 1)).calls =
          start :: (Mainline.sweepLoop env endc
            (Mainline.backup_do_cow env (sleepSt env st)
              (start * BACKUP_SECTORS_PER_CLUSTER) 1).st
            (Mainline.backup_do_cow env (sleepSt env st)
              (start * BACKUP_SECTORS_PER_CLUSTER) 1).ret
            start (iter + 1) fuel).calls ∧
        (Mainline.sweepLoop env endc st ret start iter (fuel + 1)).outcome =
          (Mainline.sweepLoop env endc
            (Mainline.backup_do_cow env (sleepSt env st)
              (start * BACKUP_SECTORS_PER_CLUSTER) 1).st
            (Mainline.backup_do_cow env (sleepSt env st)
              (start * BACKUP_SECTORS_PER_CLUSTER) 1).ret
            start (iter + 1) fuel).outcome ∧
        IOEvent.errorAction ((Mainline.backup_do_cow env (sleepSt env st)
            (start * BACKUP_SECTORS_PER_CLUSTER) 1).err.getD true) ∈
          (Mainline.sweepLoop env endc st ret start iter (fuel + 1)).trace) := by
  constructor
  · intro ha
    rw [swM_err_report env endc st ret start iter fuel h h1 h2 hr ha]
    refine ⟨rfl, rfl, ?_⟩
    simp
  · intro ha
    rw [swM_err_retry env endc st ret start iter fuel h h1 h2 hr ha]
    refine ⟨rfl, rfl, ?_⟩
    simp

theorem mainline_sweep_consults_error_policy_witness :
    (Mainline.sweepLoop envReadErr 128 Mainline.initJobState 0 0 0 (2 + 1)).outcome =
        .completed (Mainline.backup_do_cow envReadErr
          (sleepSt envReadErr Mainline.initJobState) (0 * BACKUP_SECTORS_PER_CLUSTER) 1).ret ∧
      (Mainline.sweepLoop envReadErr 128 Mainline.initJobState 0 0 0 (2 + 1)).calls = [0] ∧
      IOEvent.errorAction ((Mainline.backup_do_cow envReadErr
          (sleepSt envReadErr Mainline.initJobState)
          (0 * BACKUP_SECTORS_PER_CLUSTER) 1).err.getD true) ∈
        (Mainline.sweepLoop envReadErr 128 Mainline.initJobState 0 0 0 (2 + 1)).trace :=
  (mainline_sweep_consults_error_policy envReadErr 128 Mainline.initJobState 0 0 0 2
    (by decide) rfl rfl (by decide)).1 (by decide)

/-- C6 counterexample: the variant sweep terminates on the first
`backup_do_cow` error even though the configured policy is `ignore`
(which per the claim would require a retry of the same cluster), and it
never consults any policy. -/
theorem variant_sweep_breaks_without_policy :
    envVIgnore.errAction true 5 = .ignore ∧
    (Variant.backup_run envVIgnore 3).outcome = .completed (-5) ∧
    (Variant.backup_run envVIgnore 3).calls = [0] ∧
    (Variant.backup_run envVIgnore 3).trace.countP isPolicyConsult = 0 := by
  decide

/-- C7: the `error_is_read` output of the mainline `backup_do_cow` is
written `true` exactly for length-query failures and source-read
failures (whose failing code is returned), `false` exactly for
target-write failures, and is never written on success. -/
theorem do_cow_error_side_tagging (env : Env) (st : Mainline.JobState) (s nb : Nat) :
    (env.getLength < 0 →
      (Mainline.backup_do_cow env st s nb).err = some true ∧
        (Mainline.backup_do_cow env st s nb).ret = env.getLength) ∧
    (0 ≤ (Mainline.backup_do_cow env st s nb).ret →
      (Mainline.backup_do_cow env st s nb).err = none) ∧
    ((Mainline.backup_do_cow env st s nb).err = none →
      0 ≤ (Mainline.backup_do_cow env st s nb).ret) ∧
    (0 ≤ env.getLength → (Mainline.backup_do_cow env st s nb).err = some true →
      ∃ c, (Mainline.backup_do_cow env st s nb).ret = env.readRet c ∧
        env.readRet c < 0 ∧
        IOEvent.read (c * BACKUP_SECTORS_PER_CLUSTER)
            (nSec (env.getLength.toNat / BDRV_SECTOR_SIZE) c) ∈
          (Mainline.backup_do_cow env st s nb).trace) ∧
    ((Mainline.backup_do_cow env st s nb).err = some false →
      ∃ c, (Mainline.backup_do_cow env st s nb).ret =
          stepWr env (env.getLength.toNat / BDRV_SECTOR_SIZE) c ∧
        stepWr env (env.getLength.toNat / BDRV_SECTOR_SIZE) c < 0 ∧
        stepWev env (env.getLength.toNat / BDRV_SECTOR_SIZE) c ∈
          (Mainline.backup_do_cow env st s nb).trace) := by
  by_cases hg : env.getLength < 0
  · refine ⟨fun _ => ?_, fun hret => ?_, fun herr => ?_, fun hge _ => ?_, fun herr => ?_⟩
    · simp [Mainline.backup_do_cow, hg]
    · rw [Mainline.backup_do_cow] at hret
      simp only [hg, if_true] at hret
      omega
    · rw [Mainline.backup_do_cow] at herr
      simp [hg] at herr
    · omega
    · rw [Mainline.backup_do_cow] at herr
      simp [hg] at herr
  · rcases do_cow_err_spec env st s nb hg with hc | hc | hc
    · refine ⟨fun hl => absurd hl hg, fun _ => hc.1, fun _ => hc.2, fun _ he => ?_, fun he => ?_⟩
      · rw [hc.1] at he; cases he
      · rw [hc.1] at he; cases he
    · obtain ⟨he, hl, hev⟩ := hc
      refine ⟨fun hl' => absurd hl' hg, fun hret => ?_, fun herr => ?_,
        fun _ _ => hev, fun herr => ?_⟩
      · omega
      · rw [he] at herr; cases herr
      · rw [he] at herr
        simp at herr
    · obtain ⟨he, hl, hev⟩ := hc
      refine ⟨fun hl' => absurd hl' hg, fun hret => ?_, fun herr => ?_,
        fun _ herr => ?_, fun _ => hev⟩
      · omega
      · rw [he] at herr; cases herr
      · rw [he] at herr
        simp at herr

theorem do_cow_error_side_tagging_witness :
    (Mainline.backup_do_cow envNegLen Mainline.initJobState 0 1).err = some true ∧
      (Mainline.backup_do_cow envNegLen Mainline.initJobState 0 1).ret =
        envNegLen.getLength :=
  (do_cow_error_side_tagging envNegLen Mainline.initJobState 0 1).1 (by decide)

/-- C8 (amended, mainline part): in src/block/backup.c the progress
counter `offset` never decreases across a `backup_do_cow`, the accounting
invariant holds initially and is preserved by every in-range
`backup_do_cow` (from any caller), it bounds `offset` by the recorded
source length in bytes, and hence any sequence of in-range invocations -
and any sweep run - keeps `offset ≤ len`. -/
theorem mainline_offset_monotone_bounded :
    (∀ (env : Env) (st : Mainline.JobState) (s nb : Nat),
      st.offset ≤ (Mainline.backup_do_cow env st s nb).st.offset) ∧
    (∀ (env : Env) (st : Mainline.JobState) (s nb : Nat),
      s + nb ≤ env.getLength.toNat / BDRV_SECTOR_SIZE →
      Mainline.offsetInv env st →
      Mainline.offsetInv env (Mainline.backup_do_cow env st s nb).st) ∧
    (∀ env : Env, Mainline.offsetInv env Mainline.initJobState) ∧
    (∀ (env : Env) (st : Mainline.JobState),
      Mainline.offsetInv env st → st.offset ≤ env.getLength.toNat) ∧
    (∀ (env : Env) (calls : List (Nat × Nat)),
      (∀ p ∈ calls, p.1 + p.2 ≤ env.getLength.toNat / BDRV_SECTOR_SIZE) →
      (Mainline.runCalls env Mainline.initJobState calls).offset ≤ env.getLength.toNat) ∧
    (∀ (env : Env) (fuel : Nat),
      (Mainline.backup_run env fuel).st.offset ≤ env.getLength.toNat) :=
  ⟨fun env st s nb => do_cow_offset_mono env st s nb,
   fun env st s nb h hinv => do_cow_preserves_inv env st s nb h hinv,
   fun env => offsetInv_init env,
   fun env st hinv => offsetInv_le_len env st hinv,
   fun env calls hv =>
     offsetInv_le_len env _ (runCalls_inv env calls _ (offsetInv_init env) hv),
   fun env fuel =>
     offsetInv_le_len env _
       (sweepLoop_preserves_inv env fuel Mainline.initJobState 0 0 0 (offsetInv_init env))⟩

theorem mainline_offset_monotone_bounded_witness :
    Mainline.offsetInv envW (Mainline.backup_do_cow envW Mainline.initJobState 0 129).st ∧
      (Mainline.backup_do_cow envW Mainline.initJobState 0 129).st.offset ≤
        envW.getLength.toNat :=
  ⟨mainline_offset_monotone_bounded.2.1 envW Mainline.initJobState 0 129 (by decide)
      (mainline_offset_monotone_bounded.2.2.1 envW),
   mainline_offset_monotone_bounded.2.2.2.1 envW _
     (mainline_offset_monotone_bounded.2.1 envW Mainline.initJobState 0 129 (by decide)
       (mainline_offset_monotone_bounded.2.2.1 envW))⟩

/-- C8 counterexample: the variant sweep publishes a whole
`BACKUP_CLUSTER_SIZE` of progress per cluster, so on a 512-byte source a
successful run drives `offset` to 65536, exceeding `len = 512`. -/
theorem variant_offset_exceeds_len :
    envVShort.getLength = 512 ∧
    (Variant.backup_run envVShort 2).outcome = .completed 0 ∧
    (Variant.backup_run envVShort 2).st.offset = 65536 ∧
    envVShort.getLength < ((Variant.backup_run envVShort 2).st.offset : Int) := by
  decide

/-- C9: the pre-write interceptor's state effect is exactly
`backup_do_cow`'s, which publishes `sectors_read` (the rate-limit budget)
and `offset` by the summed sector counts of precisely the clusters whose
bit it newly set - already-copied clusters contribute nothing - and a
repeat invocation over a successfully copied range is a no-op. -/
theorem cow_progress_accounting_any_caller (env : Env) (st : Mainline.JobState)
    (req : Mainline.BdrvTrackedRequest)
    (h : req.sector_num + req.nb_sectors ≤ env.getLength.toNat / BDRV_SECTOR_SIZE) :
    Mainline.backup_before_write_notify env st req =
        Mainline.backup_do_cow env st req.sector_num req.nb_sectors ∧
      (Mainline.backup_before_write_notify env st req).st.offset =
        st.offset + BDRV_SECTOR_SIZE *
          Mainline.deltaSum (env.getLength.toNat / BDRV_SECTOR_SIZE) st.bitmap
            (Mainline.backup_before_write_notify env st req).st.bitmap ∧
      (Mainline.backup_before_write_notify env st req).st.sectors_read =
        st.sectors_read +
          Mainline.deltaSum (env.getLength.toNat / BDRV_SECTOR_SIZE) st.bitmap
            (Mainline.backup_before_write_notify env st req).st.bitmap ∧
      ((Mainline.backup_before_write_notify env st req).err = none →
        Mainline.backup_do_cow env (Mainline.backup_before_write_notify env st req).st
            req.sector_num req.nb_sectors =
          ⟨(Mainline.backup_before_write_notify env st req).st, 0, none, []⟩) :=
  ⟨rfl,
   (do_cow_delta env st req.sector_num req.nb_sectors h).1,
   (do_cow_delta env st req.sector_num req.nb_sectors h).2,
   fun he => do_cow_idempotent env st req.sector_num req.nb_sectors he⟩

theorem cow_progress_accounting_any_caller_witness :
    Mainline.backup_do_cow envW
        (Mainline.backup_before_write_notify envW Mainline.initJobState ⟨0, 129⟩).st 0 129 =
      ⟨(Mainline.backup_before_write_notify envW Mainline.initJobState ⟨0, 129⟩).st,
        0, none, []⟩ :=
  (cow_progress_accounting_any_caller envW Mainline.initJobState ⟨0, 129⟩
    (by decide)).2.2.2 (by decide)

/-- C10: the variant engine registers `backup_before_read` (and
`backup_before_write`) in its job type, and the before-read hook invokes
`backup_do_cow` for the exact sector range of the tracked guest read,
returning its result. -/
theorem variant_before_read_invokes_cow :
    Variant.backup_job_type.before_read = some Variant.backup_before_read ∧
      Variant.backup_job_type.before_write = some Variant.backup_before_write ∧
      Variant.backup_job_type.job_type = "backup" ∧
      ∀ (env : Env) (st : Variant.VJobState) (s nb : Nat) (q : Variant.QEMUIOVector),
        Variant.backup_before_read env st s nb q = Variant.backup_do_cow env st s nb :=
  ⟨rfl, rfl, rfl, fun _ _ _ _ _ => rfl⟩

end Backup
